import Mathlib

/-!
# Verification of the club-evaluation engine

Shallow embedding, in Lean 4, of the core pipeline of the club-ranking
repository: the WhatsApp chat-log parser and analyzer
(`backend/services/chat_analyzer.py`), the comprehensive evaluator
(`backend/services/comprehensive_evaluator.py`), the ranking service
(`backend/services/evaluation_service.py`) and the grouping service
(`backend/services/grouping_service.py`).

Modelling conventions:
* Python `float` values are modelled as exact rationals (`ℚ`); Python `int`
  as `ℤ`/`ℕ`; strings as Lean `String`, manipulated through their character
  lists so every definition is kernel-executable.
* Python exceptions that a function can actually raise past its own
  handlers are modelled with `Except Unit`; exceptions that are caught
  locally are folded into the returned value.
* JSON dictionaries loaded from disk are modelled as association lists /
  structures holding exactly the fields the embedded code reads; a field
  read with `dict.get(k, default)` is modelled as an always-present field,
  whose value for a missing key is the default constant.
-/

set_option maxRecDepth 100000
set_option maxHeartbeats 1000000

/-! ## Python string primitives (character-list level) -/

/-- ASCII whitespace: the characters matched by the regex class `\s` and
stripped by Python `str.strip()` (the embedding restricts itself to the
ASCII range; the chat logs contain only ASCII whitespace). -/
def isSpaceChar (c : Char) : Bool :=
  c == ' ' || c == '\t' || c == '\n' || c == '\r' || c.toNat == 11 || c.toNat == 12

def isDigitChar (c : Char) : Bool :=
  '0' ≤ c && c ≤ '9'

/-- Python `str.strip()` on a character list. -/
def pyStrip (cs : List Char) : List Char :=
  ((cs.dropWhile isSpaceChar).reverse.dropWhile isSpaceChar).reverse

/-- Python `str.strip()` on a string. -/
def pyStripS (s : String) : String :=
  String.mk (pyStrip s.data)

/-- Python `str.lower()` restricted to ASCII letters (all keyword tables in
the source are ASCII). -/
def lowerChar (c : Char) : Char :=
  if 'A' ≤ c ∧ c ≤ 'Z' then Char.ofNat (c.toNat + 32) else c

def pyLower (cs : List Char) : List Char :=
  cs.map lowerChar

def pyLowerS (s : String) : String :=
  String.mk (pyLower s.data)

/-- Python substring test `needle in hay`. -/
def pyIn (needle : List Char) : List Char → Bool
  | [] => needle.isEmpty
  | c :: t => needle.isPrefixOf (c :: t) || pyIn needle t

def pyInS (needle hay : String) : Bool :=
  pyIn needle.data hay.data

/-- Fuel-based worker for `pyReplace` (structural recursion on the fuel
keeps the definition kernel-reducible; `fuel ≥ s.length` always
suffices because each step consumes at least one character). -/
def pyReplaceAux (fuel : ℕ) (s old new : List Char) : List Char :=
  match fuel, s with
  | 0, s => s
  | _ + 1, [] => []
  | f + 1, c :: t =>
    if old ≠ [] ∧ old.isPrefixOf (c :: t) then
      new ++ pyReplaceAux f ((c :: t).drop old.length) old new
    else
      c :: pyReplaceAux f t old new

/-- Python `str.replace(old, new)`: replace non-overlapping occurrences
left to right.  (The callers in the source only ever pass non-empty `old`;
for `old = []` this model leaves the string unchanged.) -/
def pyReplace (s old new : List Char) : List Char :=
  pyReplaceAux s.length s old new

/-- Numeric value of a run of decimal digit characters (Python
`int(...)` applied to a digit string). -/
def digitsVal (ds : List Char) : ℕ :=
  ds.foldl (fun n c => 10 * n + (c.toNat - 48)) 0

def digitChar (n : ℕ) : Char :=
  Char.ofNat (48 + n)

/-- Decimal digits of `n` (fuel-based so that it is kernel-reducible;
`fuel = n` always suffices). -/
def natDigits (fuel n : ℕ) : List Char :=
  match fuel with
  | 0 => []
  | f + 1 => if n < 10 then [digitChar n] else natDigits f (n / 10) ++ [digitChar (n % 10)]

/-- Python `str(i)` for an integer, as used for dictionary keys
(`str(club_id)`) and f-strings. -/
def intKey (i : ℤ) : String :=
  if i < 0 then String.mk ('-' :: natDigits (-i).toNat (-i).toNat)
  else String.mk (natDigits i.toNat i.toNat)

/-- Model of `strftime('%Y')`, zero-padded 4-digit year (the parser below guarantees
`year ≤ 9999`; years below 1000 are zero-padded, as CPython does). -/
def pad4 (n : ℕ) : String :=
  String.mk [digitChar (n / 1000 % 10), digitChar (n / 100 % 10),
             digitChar (n / 10 % 10), digitChar (n % 10)]

/-- Model of `strftime('%m')`, zero-padded 2-digit month. -/
def pad2 (n : ℕ) : String :=
  String.mk [digitChar (n / 10 % 10), digitChar (n % 10)]

/-! ## Calendar arithmetic (Python `datetime.datetime`) -/

def isLeapYear (y : ℕ) : Bool :=
  y % 4 == 0 && (y % 100 != 0 || y % 400 == 0)

/-- Number of days in a month of the proleptic Gregorian calendar, as
validated by the `datetime.datetime` constructor. -/
def daysInMonth (y m : ℕ) : ℕ :=
  if m = 2 then (if isLeapYear y then 29 else 28)
  else if m = 4 ∨ m = 6 ∨ m = 9 ∨ m = 11 then 30
  else 31

/-- Days since 1970-01-01 of a (valid) Gregorian date; the standard
days-from-civil computation.  Date subtraction of two Python `datetime`
values whose time parts agree is the difference of these numbers, in
days. -/
def rataDie (y m d : ℕ) : ℤ :=
  let y' : ℕ := if m ≤ 2 then y - 1 else y
  let era : ℕ := y' / 400
  let yoe : ℕ := y' % 400
  let mp : ℕ := (m + 9) % 12
  let doy : ℕ := (153 * mp + 2) / 5 + (d - 1)
  let doe : ℕ := yoe * 365 + yoe / 4 - yoe / 100 + doy
  (era : ℤ) * 146097 + (doe : ℤ) - 719468

/-- A Python `datetime.datetime` as constructed by the chat parser:
`datetime(year, month, day)` leaves `hour` and `minute` at `0`. -/
structure PyDateTime where
  year : ℕ
  month : ℕ
  day : ℕ
  hour : ℕ
  minute : ℕ
deriving DecidableEq

def mkDatetime (y m d : ℕ) : PyDateTime :=
  ⟨y, m, d, 0, 0⟩

/-! ## Chat log parser (`chat_analyzer.parse_whatsapp_message`)

The source matches each (stripped) line against the regex

  `(\d{1,2}/\d{1,2}/\d{2,4}),?\s*(\d{1,2}:\d{2}\s*(?:am|pm|AM|PM)?)\s*-\s*([^:]+):\s*(.*)`

with `re.match` (anchored at the start).  The matcher below reproduces the
regex deterministically; the only constructs that genuinely need
backtracking are the boundary between the `\d{2,4}` year group and the
`\d{1,2}` hour group (a single run of digits can be split between them)
and the optional am/pm marker, both handled explicitly. -/

/-- The four capture groups (with the date group already split at its two
mandatory slashes). -/
structure MatchGroups where
  day : List Char
  month : List Char
  year : List Char
  time : List Char
  sender : List Char
  message : List Char
deriving DecidableEq

/-- Matches `\s*-\s*([^:]+):\s*(.*)` and assembles the groups.  The
greedy `\s*` after the dash normally eats all whitespace and `[^:]+`
takes the maximal non-colon run after it; but when *everything* between
the dash and the colon is whitespace, the regex backtracks: `\s*` gives
exactly one whitespace character back (longest prefix first), `[^:]+`
matches that single character (whitespace is not excluded by `[^:]`),
and the match succeeds with a one-whitespace-character sender group. -/
def matchDash (dayDs moDs yearDs timeG rest : List Char) : Option MatchGroups :=
  match rest.dropWhile isSpaceChar with
  | '-' :: r2 =>
    let ws := r2.takeWhile isSpaceChar
    let r3 := r2.dropWhile isSpaceChar
    let senderG := r3.takeWhile (fun c => c != ':')
    let r4 := r3.dropWhile (fun c => c != ':')
    if senderG.length = 0 then
      match ws.getLast?, r3 with
      | some w, ':' :: r5 =>
        some ⟨dayDs, moDs, yearDs, timeG, [w], r5.dropWhile isSpaceChar⟩
      | _, _ => none
    else
      match r4 with
      | ':' :: r5 => some ⟨dayDs, moDs, yearDs, timeG, senderG, r5.dropWhile isSpaceChar⟩
      | _ => none
  | _ => none

/-- Matches `:\d{2}\s*(?:am|pm|AM|PM)?` (the tail of the time group,
`cs` starting at the expected colon) and continues with `matchDash`.
When the two-letter am/pm marker is present but not followed by
`\s*-`, the regex's empty alternative cannot succeed either (the next
character is a letter, not a dash), so committing to the marker is
faithful. -/
def matchTimeTail (dayDs moDs yearDs hourDs cs : List Char) : Option MatchGroups :=
  match cs with
  | ':' :: r =>
    let minDs := r.takeWhile isDigitChar
    let afterMin := r.dropWhile isDigitChar
    if minDs.length ≠ 2 then none
    else
      let ws1 := afterMin.takeWhile isSpaceChar
      let afterWs1 := afterMin.dropWhile isSpaceChar
      let ampm : Option (List Char × List Char) :=
        match afterWs1 with
        | a :: b :: t =>
          if (a == 'a' && b == 'm') || (a == 'p' && b == 'm') ||
             (a == 'A' && b == 'M') || (a == 'P' && b == 'M') then some ([a, b], t)
          else none
        | _ => none
      match ampm with
      | some (ap, t) => matchDash dayDs moDs yearDs (hourDs ++ ':' :: minDs ++ ws1 ++ ap) t
      | none => matchDash dayDs moDs yearDs (hourDs ++ ':' :: minDs ++ ws1) afterWs1
  | _ => none

/-- Tries to end the year group after `ylen` of the digits in `yearRun`
(the maximal digit run after the second slash); any leftover digits must
then form the hour group, immediately followed by `:`.  The regex prefers
longer years (greedy `\d{2,4}`), so the caller tries `ylen = 4, 3, 2` in
that order. -/
def tryYearSplit (dayDs moDs yearRun afterRun : List Char) (ylen : ℕ) : Option MatchGroups :=
  if 2 ≤ ylen ∧ ylen ≤ yearRun.length then
    let yearDs := yearRun.take ylen
    let rem := yearRun.drop ylen
    if rem = [] then
      let afterComma :=
        match afterRun with
        | ',' :: t => t
        | t => t
      let afterWs := afterComma.dropWhile isSpaceChar
      let hourDs := afterWs.takeWhile isDigitChar
      let afterHour := afterWs.dropWhile isDigitChar
      if hourDs.length = 0 ∨ 2 < hourDs.length then none
      else matchTimeTail dayDs moDs yearDs hourDs afterHour
    else
      if rem.length ≤ 2 then matchTimeTail dayDs moDs yearDs rem afterRun else none
  else none

/-- The full regex match (`re.match` of the WhatsApp pattern) against an
already-stripped line. -/
def match_line (s : String) : Option MatchGroups :=
  let cs := s.data
  let dayDs := cs.takeWhile isDigitChar
  let r1 := cs.dropWhile isDigitChar
  if dayDs.length = 0 ∨ 2 < dayDs.length then none
  else
    match r1 with
    | '/' :: r2 =>
      let moDs := r2.takeWhile isDigitChar
      let r3 := r2.dropWhile isDigitChar
      if moDs.length = 0 ∨ 2 < moDs.length then none
      else
        match r3 with
        | '/' :: r4 =>
          let yearRun := r4.takeWhile isDigitChar
          let afterRun := r4.dropWhile isDigitChar
          (tryYearSplit dayDs moDs yearRun afterRun 4).orElse fun _ =>
            (tryYearSplit dayDs moDs yearRun afterRun 3).orElse fun _ =>
              tryYearSplit dayDs moDs yearRun afterRun 2
        | _ => none
    | _ => none

/-- A parsed chat message: the dictionary
`{'date': ..., 'time': ..., 'sender': ..., 'message': ...}` built by
`parse_whatsapp_message`.  `date` is `datetime(year, month, day)` — note
that the time-of-day survives only as the raw string `time`. -/
structure ChatMessage where
  date : PyDateTime
  time : String
  sender : String
  message : String
deriving DecidableEq

/-- The year interpretation of the parser: a two-digit year `YY` becomes
`2000 + YY`, any other length is taken literally. -/
def year_rule (ds : List Char) : ℕ :=
  if ds.length = 2 then 2000 + digitsVal ds else digitsVal ds

/-- The arguments on which `datetime(year, month, day)` succeeds
(`MINYEAR = 1`, `MAXYEAR = 9999`, month and day in calendar range). -/
def valid_date_parts (y m d : ℕ) : Prop :=
  1 ≤ y ∧ y ≤ 9999 ∧ 1 ≤ m ∧ m ≤ 12 ∧ 1 ≤ d ∧ d ≤ daysInMonth y m

instance (y m d : ℕ) : Decidable (valid_date_parts y m d) :=
  inferInstanceAs (Decidable (1 ≤ y ∧ y ≤ 9999 ∧ 1 ≤ m ∧ m ≤ 12 ∧ 1 ≤ d ∧ d ≤ daysInMonth y m))

/-- The `try` block of `parse_whatsapp_message`: split the date group,
apply the two-digit-year rule (`2000 + YY`), validate the date exactly as
the `datetime` constructor does (returning `none` where it would raise),
and strip the textual groups. -/
def mk_message (g : MatchGroups) : Option ChatMessage :=
  let dayN := digitsVal g.day
  let monthN := digitsVal g.month
  let yearN := year_rule g.year
  if valid_date_parts yearN monthN dayN then
    some { date := mkDatetime yearN monthN dayN,
           time := String.mk (pyStrip g.time),
           sender := String.mk (pyStrip g.sender),
           message := String.mk (pyStrip g.message) }
  else none

/-- Model of `chat_analyzer.parse_whatsapp_message` (lines 48–78): `re.match` on the
stripped line, then the date logic; any failure yields `None`. -/
def parse_whatsapp_message (line : String) : Option ChatMessage :=
  (match_line (pyStripS line)).bind mk_message

/-! ## Chat analyzer (`chat_analyzer.py`) -/

/-- The four keyword tables of `WhatsAppChatAnalyzer.__init__`. -/
def event_keywords : List String :=
  ["event", "workshop", "competition", "hackathon", "meeting", "session",
   "practice", "performance", "show", "concert", "exhibition", "contest",
   "audition", "registration", "register", "participate", "join"]

def help_keywords : List String :=
  ["help", "doubt", "question", "problem", "issue", "stuck", "confused",
   "clarification", "explain", "how to", "can someone", "need assistance"]

def collaboration_keywords : List String :=
  ["collab", "collaboration", "together", "team up", "joint", "partner",
   "work with", "combine", "merge", "cross-club", "inter-club"]

def engagement_keywords : List String :=
  ["great", "awesome", "excellent", "amazing", "love", "like", "thanks",
   "thank you", "good", "nice", "cool", "interested", "excited"]

/-- Model of `_count_keyword_messages`: messages whose lowercased body contains any
of the keywords as a substring. -/
def _count_keyword_messages (messages : List ChatMessage) (keywords : List String) : ℕ :=
  messages.countP fun m => keywords.any fun k => pyIn k.data (pyLower m.message.data)

/-- Insertion-ordered counter bump: the model of `defaultdict(int)` /
`Counter` increments in one left-to-right pass. -/
def bumpKey {κ : Type} [BEq κ] (k : κ) : List (κ × ℕ) → List (κ × ℕ)
  | [] => [(k, 1)]
  | (k', n) :: t => if k == k' then (k', n + 1) :: t else (k', n) :: bumpKey k t

/-- Model of `msg['date'].strftime('%Y-%m')`. -/
def monthKey (d : PyDateTime) : String :=
  pad4 d.year ++ "-" ++ pad2 d.month

/-- Model of `_analyze_monthly_activity` (lines 162–169): counts per `YYYY-MM` key. -/
def _analyze_monthly_activity (messages : List ChatMessage) : List (String × ℕ) :=
  messages.foldl (fun acc m => bumpKey (monthKey m.date) acc) []

/-- Model of `_analyze_hourly_activity` (lines 171–178): counts per `msg['date'].hour`. -/
def _analyze_hourly_activity (messages : List ChatMessage) : List (ℕ × ℕ) :=
  messages.foldl (fun acc m => bumpKey m.date.hour acc) []

/-- The question test of `_analyze_response_patterns`: a `?` in the body,
or one of `help`, `doubt`, `how` in the lowercased body. -/
def is_question_msg (m : ChatMessage) : Bool :=
  pyIn "?".data m.message.data ||
    (["help", "doubt", "how"].any fun w => pyIn w.data (pyLower m.message.data))

/-- The `question_messages` list: indexed messages passing the question
test. -/
def question_messages (messages : List ChatMessage) : List (ℕ × ChatMessage) :=
  messages.enum.filter fun p => is_question_msg p.2

/-- Model of `(a - b).total_seconds() / 60` for the two `datetime` values (whose
time parts are both zero, so the difference is a whole number of days). -/
def minutesDiff (a b : PyDateTime) : ℚ :=
  ((rataDie a.year a.month a.day - rataDie b.year b.month b.day : ℤ) : ℚ) * 1440

/-- The inner loop of `_analyze_response_patterns` for one question at
index `qidx`: scan the at most 5 following messages, stop at the first one
from a different sender, and count it (returning its latency in minutes)
iff it lies within 2 hours. -/
def quick_scan (messages : List ChatMessage) (qidx : ℕ) (q : ChatMessage) : Option ℚ :=
  match ((messages.drop (qidx + 1)).take 5).find? (fun m => m.sender != q.sender) with
  | none => none
  | some m => if minutesDiff m.date q.date < 120 then some (minutesDiff m.date q.date) else none

/-- The accumulation over all questions: number of quick responses and the
recorded latencies, in question order. -/
def response_loop (messages : List ChatMessage) : List (ℕ × ChatMessage) → ℕ × List ℚ
  | [] => (0, [])
  | (i, q) :: rest =>
    let r := response_loop messages rest
    match quick_scan messages i q with
    | some t => (r.1 + 1, t :: r.2)
    | none => r

/-- The `response_patterns` dictionary. -/
structure ResponsePatterns where
  total_questions : ℕ
  quick_responses : ℕ
  response_rate_percentage : ℚ
  avg_response_time_minutes : ℚ
deriving DecidableEq

/-- Model of `_analyze_response_patterns` (lines 196–225). -/
def _analyze_response_patterns (messages : List ChatMessage) : ResponsePatterns :=
  let qs := question_messages messages
  let qt := response_loop messages qs
  { total_questions := qs.length
    quick_responses := qt.1
    response_rate_percentage :=
      if 0 < qs.length then (qt.1 : ℚ) / (qs.length : ℚ) * 100 else 0
    avg_response_time_minutes :=
      if qt.2 = [] then 0 else qt.2.sum / (qt.2.length : ℚ) }

/-- Model of `_calculate_engagement_score` (lines 227–246). -/
def _calculate_engagement_score (total_messages unique_senders event_messages
    help_messages engagement_messages total_lines : ℕ) : ℚ :=
  let density_score : ℚ :=
    if 0 < total_lines then min ((total_messages : ℚ) / (total_lines : ℚ) * 10) 3 else 0
  let participation_score : ℚ := min ((unique_senders : ℚ) / 20) 2
  let content_score : ℚ :=
    if 0 < total_messages then
      min (((event_messages + help_messages + engagement_messages : ℕ) : ℚ)
            / (total_messages : ℚ) * 5) 3
    else 0
  let volume_score : ℚ := min ((total_messages : ℚ) / 100) 2
  min (density_score + participation_score + content_score + volume_score) 10

/-- Lexicographic comparison of datetimes (Python `<` on `datetime`),
used by `min`/`max` over message dates. -/
def dtLe (a b : PyDateTime) : Bool :=
  decide (rataDie a.year a.month a.day ≤ rataDie b.year b.month b.day)

def dtMinList (d : PyDateTime) (l : List PyDateTime) : PyDateTime :=
  l.foldl (fun acc x => if dtLe x acc then x else acc) d

def dtMaxList (d : PyDateTime) (l : List PyDateTime) : PyDateTime :=
  l.foldl (fun acc x => if dtLe acc x then x else acc) d

/-- The full analysis dictionary returned by `analyze_chat_file` when at
least one line parsed.  The `sender_stats` entry (top-5 senders and
mean/median/std of the per-sender distribution, a purely diagnostic
field involving an irrational standard deviation) is not modelled; no
claim refers to it. -/
structure ChatAnalysis where
  total_messages : ℕ
  total_lines : ℕ
  unique_senders : ℕ
  avg_messages_per_sender : ℚ
  event_related : ℕ
  help_requests : ℕ
  collaboration : ℕ
  positive_engagement : ℕ
  monthly : List (String × ℕ)
  hourly : List (ℕ × ℕ)
  response_patterns : ResponsePatterns
  engagement_score : ℚ
  date_start : PyDateTime
  date_end : PyDateTime
deriving DecidableEq

/-- The three shapes of dictionary `analyze_chat_file` can return:
`emptyDict` is the bare `{}` produced when reading the file raised;
`partialRecord tm us es` is the literal
`{'total_messages': tm, 'unique_senders': us, 'activity_analysis': {},
'engagement_score': es}` returned when no line parsed; `fullRecord`
carries the full analysis. -/
inductive AnalyzeChatResult where
  | emptyDict : AnalyzeChatResult
  | partialRecord (total_messages unique_senders : ℕ) (engagement_score : ℚ) : AnalyzeChatResult
  | fullRecord (a : ChatAnalysis) : AnalyzeChatResult
deriving DecidableEq

/-- Model of `analyze_chat_file` (lines 80–151).  The argument is `none` when
opening/reading the file raised (the source catches the exception, prints,
and returns `{}`), and `some lines` for a successful `readlines()`. -/
def analyze_chat_file : Option (List String) → AnalyzeChatResult
  | none => .emptyDict
  | some lines =>
    match lines.filterMap parse_whatsapp_message with
    | [] => .partialRecord 0 0 0
    | m0 :: rest =>
      let messages := m0 :: rest
      let total_messages := messages.length
      let unique_senders := (messages.map (fun m => m.sender)).dedup.length
      let event_messages := _count_keyword_messages messages event_keywords
      let help_messages := _count_keyword_messages messages help_keywords
      let collab_messages := _count_keyword_messages messages collaboration_keywords
      let engagement_messages := _count_keyword_messages messages engagement_keywords
      .fullRecord
        { total_messages := total_messages
          total_lines := lines.length
          unique_senders := unique_senders
          avg_messages_per_sender :=
            if 0 < unique_senders then (total_messages : ℚ) / (unique_senders : ℚ) else 0
          event_related := event_messages
          help_requests := help_messages
          collaboration := collab_messages
          positive_engagement := engagement_messages
          monthly := _analyze_monthly_activity messages
          hourly := _analyze_hourly_activity messages
          response_patterns := _analyze_response_patterns messages
          engagement_score :=
            _calculate_engagement_score total_messages unique_senders event_messages
              help_messages engagement_messages lines.length
          date_start := dtMinList m0.date (rest.map (fun m => m.date))
          date_end := dtMaxList m0.date (rest.map (fun m => m.date)) }

/-! ## `_parse_number` (`comprehensive_evaluator.py` lines 344–356) and
its model of CPython `float()` / `int()` -/

/-- A JSON value passed to `_parse_number`: a number (`isinstance(value,
(int, float))`, truncated by `int(value)`; the data files hold integers)
or a string. -/
inductive PyVal where
  | int (n : ℤ)
  | str (s : String)
deriving DecidableEq

instance {ε α : Type} [DecidableEq ε] [DecidableEq α] : DecidableEq (Except ε α) :=
  fun a b =>
    match a, b with
    | .ok x, .ok y =>
      if h : x = y then .isTrue (by rw [h]) else .isFalse (by simp [h])
    | .error x, .error y =>
      if h : x = y then .isTrue (by rw [h]) else .isFalse (by simp [h])
    | .ok _, .error _ => .isFalse (by simp)
    | .error _, .ok _ => .isFalse (by simp)

/-- Result of CPython `float(s)`: a finite value `m·10^e` kept as an exact
scaled decimal, an infinity, or a nan.  (The 53-bit rounding of finite
values is not modelled — only comparisons against saturation caps and
truncation to `int` are consumed downstream, where the exact value is
faithful for the magnitudes the data can hold.) -/
inductive PyFloat where
  | finite (m : ℤ) (e : ℤ)
  | inf (neg : Bool)
  | nan
deriving DecidableEq

/-- Finite decimals of magnitude `≥ 2^1024` overflow to infinity in
CPython `float(str)` (the model uses `2^1024` for the exact
round-to-nearest boundary `2^1024 − 2^970`). -/
def floatOverflows (mAbs : ℕ) (e : ℤ) : Bool :=
  if 0 ≤ e then decide (2 ^ 1024 ≤ mAbs * 10 ^ e.toNat)
  else decide (2 ^ 1024 * 10 ^ (-e).toNat ≤ mAbs)

def mkFinite (neg : Bool) (mAbs : ℕ) (e : ℤ) : PyFloat :=
  if floatOverflows mAbs e then .inf neg
  else .finite (if neg then -(mAbs : ℤ) else (mAbs : ℤ)) e

/-- CPython `float(s)` on a character list: optional surrounding
whitespace and sign, then `inf`/`infinity`/`nan` (case-insensitive) or a
decimal literal `digits [. digits] [(e|E) [sign] digits]` with at least
one digit in the integer-or-fraction part; `none` models `ValueError`.
(Underscore digit grouping and non-ASCII digits are accepted by CPython
but not modelled; no input of the data files or claims uses them.) -/
def pyFloatOfChars (cs0 : List Char) : Option PyFloat :=
  let cs1 := pyStrip cs0
  let signAndRest : Bool × List Char :=
    match cs1 with
    | '-' :: t => (true, t)
    | '+' :: t => (false, t)
    | t => (false, t)
  let neg := signAndRest.1
  let cs2 := signAndRest.2
  let low := pyLower cs2
  if low = "inf".data ∨ low = "infinity".data then some (.inf neg)
  else if low = "nan".data then some .nan
  else
    let ip := cs2.takeWhile isDigitChar
    let r1 := cs2.dropWhile isDigitChar
    let fracAndRest : List Char × List Char :=
      match r1 with
      | '.' :: t => (t.takeWhile isDigitChar, t.dropWhile isDigitChar)
      | t => ([], t)
    let fp := fracAndRest.1
    let r2 := fracAndRest.2
    if ip.length + fp.length = 0 then none
    else
      let mAbs := digitsVal (ip ++ fp)
      match r2 with
      | [] => some (mkFinite neg mAbs (-(fp.length : ℤ)))
      | e :: t =>
        if e == 'e' || e == 'E' then
          let esignAndRest : Bool × List Char :=
            match t with
            | '-' :: u => (true, u)
            | '+' :: u => (false, u)
            | u => (false, u)
          let ed := esignAndRest.2.takeWhile isDigitChar
          let t3 := esignAndRest.2.dropWhile isDigitChar
          if ed = [] ∨ t3 ≠ [] then none
          else
            let ev : ℤ := if esignAndRest.1 then -(digitsVal ed : ℤ) else (digitsVal ed : ℤ)
            some (mkFinite neg mAbs (ev - (fp.length : ℤ)))
        else none

/-- CPython `int(x)` for a finite float `m·10^e`: truncation toward
zero. -/
def truncSci (m e : ℤ) : ℤ :=
  if 0 ≤ e then m * 10 ^ e.toNat
  else
    if 0 ≤ m then ((m.toNat / 10 ^ (-e).toNat : ℕ) : ℤ)
    else -(((-m).toNat / 10 ^ (-e).toNat : ℕ) : ℤ)

/-- Model of `_parse_number` (lines 344–356): numbers pass through `int(value)`;
strings are cleaned with `.replace(',', '').replace('N/A', '0')` and fed
to `int(float(cleaned))`.  The `except ValueError` arm (unparseable
residue, and `int(nan)`) returns 0; but `int(±inf)` raises
`OverflowError`, which the source does **not** catch — modelled as
`.error ()`. -/
def _parse_number : PyVal → Except Unit ℤ
  | .int n => .ok n
  | .str s =>
    let cleaned := pyReplace (pyReplace s.data ",".data "".data) "N/A".data "0".data
    match pyFloatOfChars cleaned with
    | none => .ok 0
    | some .nan => .ok 0
    | some (.inf _) => .error ()
    | some (.finite m e) => .ok (truncSci m e)

/-! ## Comprehensive evaluator (`comprehensive_evaluator.py`)

The three loaded JSON dictionaries are modelled as association lists.
Their keys are the strings `club_<i>`; since the source round-trips the
key through `f"club_{club_id}"` and `int(key.split('_')[1])`, the model
keys directly by the integer `i`. -/

structure InstagramData where
  followers : PyVal
  bio : String
deriving DecidableEq

structure LinkedInData where
  followers : PyVal
  about : String
deriving DecidableEq

/-- The `social_media` sub-dictionary of one club's scraped record
(`.get('social_media', {})` with per-platform presence tests). -/
structure SocialMediaInfo where
  instagram : Option InstagramData
  linkedin : Option LinkedInData
deriving DecidableEq

/-- One club's record in `whatsapp_analysis.json`, holding exactly the
fields the evaluator reads (each read with a `.get` default, modelled as
an always-present field carrying the default when absent). -/
structure WhatsAppInfo where
  engagement_score : ℚ
  response_rate_percentage : ℚ
  event_related : ℚ
  help_requests : ℚ
  collaboration : ℚ
  total_messages : ℚ
  unique_senders : ℚ
  monthly : List (String × ℚ)
deriving DecidableEq

structure ClubInfo where
  name : String
deriving DecidableEq

/-- The state loaded by `ComprehensiveClubEvaluator.__init__`. -/
structure EvalData where
  social_media_data : List (ℤ × SocialMediaInfo)
  whatsapp_data : List (ℤ × WhatsAppInfo)
  clubs_data : List (ℤ × ClubInfo)
deriving DecidableEq

/-- The declared evaluation weights (`__init__`, lines 47–53). -/
def weight_social_media : ℚ := 35 / 100
def weight_chat_engagement : ℚ := 25 / 100
def weight_reach : ℚ := 20 / 100
def weight_community_activity : ℚ := 15 / 100
def weight_content_quality : ℚ := 5 / 100

/-- Model of `calculate_social_media_score` (lines 86–124). -/
def calculate_social_media_score (d : EvalData) (club_id : ℤ) : Except Unit ℚ :=
  match d.social_media_data.lookup club_id with
  | none => .ok 0
  | some info => do
    let instaPart : ℚ × ℕ ←
      match info.instagram with
      | none => pure ((0 : ℚ), (0 : ℕ))
      | some ig => do
        let followers ← _parse_number ig.followers
        let follower_score : ℚ := min ((followers : ℚ) / 100) 5
        let bio_quality : ℚ := if 50 < ig.bio.length then 3 else 1
        pure (min (follower_score + bio_quality) 8, 1)
    let liPart : ℚ × ℕ ←
      match info.linkedin with
      | none => pure ((0 : ℚ), (0 : ℕ))
      | some li => do
        let followers ← _parse_number li.followers
        let follower_score : ℚ := min ((followers : ℚ) / 50) 4
        let about_quality : ℚ :=
          if 100 < li.about.length ∧ pyInS "N/A" li.about = false then 4 else 1
        pure (min (follower_score + about_quality) 8, 1)
    let total_score := instaPart.1 + liPart.1
    let platform_count := instaPart.2 + liPart.2
    if 0 < platform_count then return min (total_score / (platform_count : ℚ)) 10
    else return 0

/-- Model of `calculate_chat_engagement_score` (lines 126–148). -/
def calculate_chat_engagement_score (d : EvalData) (club_id : ℤ) : ℚ :=
  match d.whatsapp_data.lookup club_id with
  | none => 0
  | some chat =>
    let base_score := chat.engagement_score
    let response_bonus := min (chat.response_rate_percentage / 100 * 2) 2
    let event_ratio := chat.event_related / max chat.total_messages 1
    let content_bonus := min (event_ratio * 10) 1
    min (base_score + response_bonus + content_bonus) 10

/-- Model of `calculate_combined_reach_score` (lines 150–172). -/
def calculate_combined_reach_score (d : EvalData) (club_id : ℤ) : Except Unit ℚ := do
  let smPart : ℚ ←
    match d.social_media_data.lookup club_id with
    | none => pure (0 : ℚ)
    | some info => do
      let igF : ℤ ←
        match info.instagram with
        | none => pure (0 : ℤ)
        | some ig => _parse_number ig.followers
      let liF : ℤ ←
        match info.linkedin with
        | none => pure (0 : ℤ)
        | some li => _parse_number li.followers
      pure ((igF + liF : ℤ) : ℚ)
  let waPart : ℚ :=
    match d.whatsapp_data.lookup club_id with
    | none => 0
    | some chat => chat.unique_senders * 2
  let total_followers := smPart + waPart
  return min (total_followers / 200) 10

/-- Model of `calculate_community_activity_score` (lines 174–196). -/
def calculate_community_activity_score (d : EvalData) (club_id : ℤ) : ℚ :=
  match d.whatsapp_data.lookup club_id with
  | none => 0
  | some chat =>
    let message_score := min (chat.total_messages / 200) 5
    let participation_score := min (chat.unique_senders / 20) 3
    let active_months : ℕ := (chat.monthly.filter fun p => 0 < p.2).length
    let consistency_score := min ((active_months : ℚ) / 6) 2
    min (message_score + participation_score + consistency_score) 10

/-- Model of `calculate_content_quality_score` (lines 198–235). -/
def calculate_content_quality_score (d : EvalData) (club_id : ℤ) : ℚ :=
  let smPart : ℚ :=
    match d.social_media_data.lookup club_id with
    | none => 0
    | some info =>
      let igPart : ℚ :=
        match info.instagram with
        | none => 0
        | some ig =>
          if 50 < ig.bio.length ∧
             (["official", "club", "community"].any fun w =>
               pyIn w.data (pyLower ig.bio.data)) = true then 2
          else 0
      let liPart : ℚ :=
        match info.linkedin with
        | none => 0
        | some li =>
          if 100 < li.about.length ∧ pyInS "N/A" li.about = false then 3 else 0
      igPart + liPart
  let waPart : ℚ :=
    match d.whatsapp_data.lookup club_id with
    | none => 0
    | some chat =>
      let tm := max chat.total_messages 1
      let event_ratio := chat.event_related / tm
      let help_ratio := chat.help_requests / tm
      let collab_ratio := chat.collaboration / tm
      min (event_ratio * 30) 3 + min ((help_ratio + collab_ratio) * 20) 2
  min (smPart + waPart) 10

/-- The `ClubEvaluationResult` dataclass (`rank` defaults to 0 and is
assigned after sorting). -/
structure ClubEvaluationResult where
  club_id : ℤ
  club_name : String
  overall_score : ℚ
  social_media_score : ℚ
  chat_engagement_score : ℚ
  combined_reach_score : ℚ
  community_activity_score : ℚ
  content_quality_score : ℚ
  rank : ℕ
deriving DecidableEq

/-- Model of `evaluate_club` (lines 237–266). -/
def evaluate_club (d : EvalData) (club_id : ℤ) : Except Unit ClubEvaluationResult := do
  let club_name :=
    match d.clubs_data.lookup club_id with
    | some info => info.name
    | none => "Club " ++ intKey club_id
  let social_media_score ← calculate_social_media_score d club_id
  let chat_engagement_score := calculate_chat_engagement_score d club_id
  let combined_reach_score ← calculate_combined_reach_score d club_id
  let community_activity_score := calculate_community_activity_score d club_id
  let content_quality_score := calculate_content_quality_score d club_id
  let overall_score :=
    social_media_score * weight_social_media +
    chat_engagement_score * weight_chat_engagement +
    combined_reach_score * weight_reach +
    community_activity_score * weight_community_activity +
    content_quality_score * weight_content_quality
  return { club_id := club_id, club_name := club_name, overall_score := overall_score,
           social_media_score := social_media_score,
           chat_engagement_score := chat_engagement_score,
           combined_reach_score := combined_reach_score,
           community_activity_score := community_activity_score,
           content_quality_score := content_quality_score, rank := 0 }

/-! ## Stable descending sort with 1-based rank assignment

Python's `list.sort(key=..., reverse=True)` is a stable sort into
descending key order (equal-key elements keep their relative order; the
reversal applies to the comparison, not to the result).  `List.mergeSort`
with the total, transitive comparison `score_le` has exactly these
semantics, and any two stable sorts with the same comparison agree. -/

def score_le {α : Type} (score : α → ℚ) (a b : α) : Bool :=
  decide (score b ≤ score a)

/-- Sort descending by `score` (stably) and assign `rank := i + 1` by
post-sort position — the shared pattern of
`comprehensive_evaluator.evaluate_all_clubs` (lines 287–292) and
`evaluation_service.get_overall_rankings` (lines 231–236). -/
def sort_and_rank {α : Type} (score : α → ℚ) (setRank : ℕ → α → α) (l : List α) : List α :=
  (l.mergeSort (score_le score)).mapIdx fun i x => setRank (i + 1) x

/-- The club-id set assembled by `evaluate_all_clubs` (lines 271–280) from
the keys of the three data sources.  The source materialises a Python
`set`, whose iteration order is an interpreter artifact; the model
deduplicates the concatenated key lists, and every property proved about
the ranking holds for any order of this list. -/
def club_ids (d : EvalData) : List ℤ :=
  ((d.social_media_data.map Prod.fst) ++ (d.whatsapp_data.map Prod.fst) ++
    (d.clubs_data.map Prod.fst)).dedup

def setRankResult (r : ℕ) (x : ClubEvaluationResult) : ClubEvaluationResult :=
  { x with rank := r }

/-- Model of `evaluate_all_clubs` (lines 268–294). -/
def evaluate_all_clubs (d : EvalData) : Except Unit (List ClubEvaluationResult) := do
  let results ← (club_ids d).mapM (evaluate_club d)
  return sort_and_rank (fun r : ClubEvaluationResult => r.overall_score) setRankResult results

/-! ## Club model (`models/club.py`)

Only the fields read by the embedded services are modelled
(`social_media`, `founded_year` and `member_count` are carried by the
pydantic model but never read by the evaluation or grouping code). -/

structure Club where
  id : ℤ
  name : String
  category : String
  description : String
  keywords : List String
  activities : List String
deriving DecidableEq

/-! ## Evaluation service (`evaluation_service.py`) -/

structure Event where
  club_id : ℤ
  participants : ℚ
  duration_hours : ℚ
  impact_score : ℚ
  collaboration_clubs : List ℤ
deriving DecidableEq

structure SocialMediaMetric where
  club_id : ℤ
  engagement_rate : ℚ
  posts_last_month : ℚ
  collaboration_posts : ℚ
deriving DecidableEq

structure WhatsAppActivity where
  club_id : ℤ
  engagement_score : ℚ
  collaboration_messages : ℚ
deriving DecidableEq

/-- The `vote_summary` object of `voting_data.json`: category name →
(club-id string → votes), plus the total vote count (read with
`.get('total_votes', 1)`, modelled as an always-present field carrying
the default when absent). -/
structure VoteSummary where
  categories : List (String × List (String × ℚ))
  total_votes : ℚ
deriving DecidableEq

/-- The state loaded by `ClubEvaluationService.__init__`; `voting_data`
is `none` when the file failed to load (empty dict) or has no
`vote_summary` key. -/
structure ESData where
  events : List Event
  social_media_metrics : List SocialMediaMetric
  whatsapp_activity : List WhatsAppActivity
  voting_data : Option VoteSummary
deriving DecidableEq

/-- The weights of `ClubEvaluationService.__init__` (lines 25–31). -/
def es_weight_social_media : ℚ := 2 / 10
def es_weight_event_impact : ℚ := 3 / 10
def es_weight_community_engagement : ℚ := 25 / 100
def es_weight_collaboration : ℚ := 15 / 100
def es_weight_voting : ℚ := 1 / 10

/-- Model of `_calculate_social_media_score` (lines 125–141). -/
def _calculate_social_media_score (es : ESData) (club_id : ℤ) : ℚ :=
  let club_metrics := es.social_media_metrics.filter fun m => m.club_id == club_id
  if club_metrics = [] then 0
  else
    let total_score := (club_metrics.map fun metric =>
      (min metric.engagement_rate 10 + min (metric.posts_last_month / 5) 10 +
        min (metric.collaboration_posts * 2) 10) / 3).sum
    min (total_score / (club_metrics.length : ℚ)) 10

/-- Model of `_calculate_event_impact_score` (lines 143–159). -/
def _calculate_event_impact_score (es : ESData) (club_id : ℤ) : ℚ :=
  let club_events := es.events.filter fun e => e.club_id == club_id
  if club_events = [] then 0
  else
    let total_score := (club_events.map fun event =>
      event.impact_score * (5 / 10) + min (event.participants / 50) 10 * (3 / 10) +
        min (event.duration_hours / 8) 10 * (2 / 10)).sum
    min (total_score / (club_events.length : ℚ)) 10

/-- Model of `_calculate_community_engagement_score` (lines 161–172). -/
def _calculate_community_engagement_score (es : ESData) (club_id : ℤ) : ℚ :=
  let club_activities := es.whatsapp_activity.filter fun w => w.club_id == club_id
  if club_activities = [] then 0
  else
    min (((club_activities.map fun a => a.engagement_score).sum)
          / (club_activities.length : ℚ)) 10

/-- Model of `_calculate_collaboration_score` (lines 174–193). -/
def _calculate_collaboration_score (es : ESData) (club_id : ℤ) : ℚ :=
  let collaborative_events :=
    es.events.filter fun e => e.club_id == club_id && !e.collaboration_clubs.isEmpty
  let collaborative_posts :=
    ((es.social_media_metrics.filter fun m => m.club_id == club_id).map
      fun m => m.collaboration_posts).sum
  let collaborative_messages :=
    ((es.whatsapp_activity.filter fun w => w.club_id == club_id).map
      fun w => w.collaboration_messages).sum
  let event_score := min ((collaborative_events.length : ℚ) * 2) 10
  let posts_score := min (collaborative_posts * 1) 10
  let messages_score := min (collaborative_messages / 5) 10
  (event_score + posts_score + messages_score) / 3

/-- The per-category loop of `_calculate_voting_score` (lines 206–213):
each iteration divides `club_votes / total_votes`, which raises
`ZeroDivisionError` when `total_votes = 0` — modelled as `.error ()`
before the division of the first iteration, exactly where Python raises
(the error cannot occur on an empty category list). -/
def voting_fold (tv : ℚ) (key : String) :
    List (String × List (String × ℚ)) → ℚ × ℕ → Except Unit (ℚ × ℕ)
  | [], acc => .ok acc
  | cat :: rest, acc =>
    if tv = 0 then .error ()
    else
      let club_votes := (cat.2.lookup key).getD 0
      let category_score := min (club_votes / tv * 100 * 2) 10
      voting_fold tv key rest (acc.1 + category_score, acc.2 + 1)

/-- Model of `_calculate_voting_score` (lines 195–215): the neutral default 5.0
when there is no voting data (or no categories); otherwise the mean over
categories of `min((club_votes / total_votes) * 100 * 2, 10)`, where a
club absent from a category's vote map contributes `club_votes = 0`.
With `total_votes = 0` and at least one category the division raises
`ZeroDivisionError` (uncaught), modelled by the `Except` error of
`voting_fold`. -/
def _calculate_voting_score (es : ESData) (club_id : ℤ) : Except Unit ℚ :=
  match es.voting_data with
  | none => .ok 5
  | some v => do
    let folded ← voting_fold v.total_votes (intKey club_id) v.categories ((0 : ℚ), (0 : ℕ))
    if 0 < folded.2 then return folded.1 / (folded.2 : ℚ) else return 5

/-- The loaded voting data cannot trigger the `ZeroDivisionError` path:
it is absent, or has no categories, or has a non-zero vote total. -/
def voting_ok (es : ESData) : Bool :=
  match es.voting_data with
  | none => true
  | some v => v.categories.isEmpty || decide (v.total_votes ≠ 0)

structure EvaluationMetrics where
  club_id : ℤ
  social_media_score : ℚ
  event_impact_score : ℚ
  community_engagement_score : ℚ
  collaboration_score : ℚ
  voting_score : ℚ
  overall_score : ℚ
deriving DecidableEq

/-- Model of `calculate_club_metrics` (lines 96–123); propagates the
possible `ZeroDivisionError` of the voting score. -/
def calculate_club_metrics (es : ESData) (club_id : ℤ) : Except Unit EvaluationMetrics := do
  let social_media_score := _calculate_social_media_score es club_id
  let event_impact_score := _calculate_event_impact_score es club_id
  let community_engagement_score := _calculate_community_engagement_score es club_id
  let collaboration_score := _calculate_collaboration_score es club_id
  let voting_score ← _calculate_voting_score es club_id
  return ⟨club_id, social_media_score, event_impact_score, community_engagement_score,
    collaboration_score, voting_score,
    social_media_score * es_weight_social_media +
      event_impact_score * es_weight_event_impact +
      community_engagement_score * es_weight_community_engagement +
      collaboration_score * es_weight_collaboration +
      voting_score * es_weight_voting⟩

structure ClubRanking where
  rank : ℕ
  club : Club
  metrics : EvaluationMetrics
deriving DecidableEq

def setRankRanking (r : ℕ) (x : ClubRanking) : ClubRanking :=
  { x with rank := r }

/-- The body of the `for club in clubs` loop of `get_overall_rankings`
(lines 222–229): one `ClubRanking` with rank initially 0. -/
def mk_ranking (es : ESData) (club : Club) : Except Unit ClubRanking := do
  let metrics ← calculate_club_metrics es club.id
  return ⟨0, club, metrics⟩

/-- Model of `get_overall_rankings` (lines 217–238): one `ClubRanking` per club of
the loaded club list (rank initially 0), stably sorted descending by
overall score, ranks assigned as 1-based positions; an uncaught exception
from any club's metrics aborts the whole call. -/
def get_overall_rankings (es : ESData) (clubs : List Club) : Except Unit (List ClubRanking) := do
  let rankings ← clubs.mapM (mk_ranking es)
  return sort_and_rank (fun x => x.metrics.overall_score) setRankRanking rankings

/-! ## Grouping service (`grouping_service.py`) -/

structure ClubGroup where
  group_name : String
  description : String
  clubs : List Club
  similarity_score : ℚ
deriving DecidableEq

structure GroupDef where
  name : String
  keywords : List String
  categories : List String
  description : String
deriving DecidableEq

/-- The `group_definitions` table of `ClubGroupingService.__init__`
(lines 20–41), in dictionary insertion order. -/
def group_definitions : List GroupDef :=
  [⟨"Technical & Innovation",
    ["coding", "programming", "technology", "software", "robotics", "automation",
     "electronics", "IoT"],
    ["technical"],
    "Clubs focused on technology, programming, and technical innovation"⟩,
   ⟨"Performing Arts",
    ["dance", "music", "performance", "singing", "instruments", "choreography"],
    ["performing_arts"],
    "Clubs dedicated to music, dance, and live performances"⟩,
   ⟨"Creative & Visual Arts",
    ["photography", "videography", "visual", "creativity", "editing", "storytelling"],
    ["creative_arts"],
    "Clubs focused on visual arts, photography, and creative expression"⟩,
   ⟨"Leadership & Communication",
    ["debate", "public speaking", "leadership", "diplomacy", "communication"],
    ["debate_discussion"],
    "Clubs emphasizing leadership, debate, and communication skills"⟩]

/-- Membership test of `_create_predefined_groups` (lines 82–103): the
club's category matches exactly, or some group keyword occurs
(case-insensitively, as a substring) in some club keyword or activity. -/
def club_matches_group (gd : GroupDef) (club : Club) : Bool :=
  gd.categories.contains club.category ||
    (gd.keywords.any fun gk =>
      club.keywords.any fun ck => pyIn (pyLower gk.data) (pyLower ck.data)) ||
    (gd.keywords.any fun gk =>
      club.activities.any fun act => pyIn (pyLower gk.data) (pyLower act.data))

/-- Model of `_calculate_group_similarity` (lines 168–189). -/
def _calculate_group_similarity (clubs : List Club) (group_keywords : List String) : ℚ :=
  if clubs = [] then 0
  else
    let total_score := (clubs.map fun club =>
      let keyword_matches := group_keywords.countP fun gk =>
        (club.keywords.any fun ck => pyIn (pyLower gk.data) (pyLower ck.data)) ||
          (club.activities.any fun act => pyIn (pyLower gk.data) (pyLower act.data))
      if group_keywords.length ≠ 0 then (keyword_matches : ℚ) / (group_keywords.length : ℚ)
      else 0).sum
    min (total_score / (clubs.length : ℚ)) 1

/-- Model of `_create_predefined_groups` (lines 75–117): one group per definition
that matched at least one club, members in club-list order. -/
def _create_predefined_groups (clubs : List Club) : List ClubGroup :=
  group_definitions.filterMap fun gd =>
    let group_clubs := clubs.filter (club_matches_group gd)
    if group_clubs = [] then none
    else some ⟨gd.name, gd.description, group_clubs,
               _calculate_group_similarity group_clubs gd.keywords⟩

/-- Model of `group_clubs` (lines 43–73), parameterised by the ML clustering pass:
the source computes `ml_groups = self._create_ml_groups()` (TF-IDF +
KMeans, lines 119–166) but never uses the result, so the embedding takes
that pass as an arbitrary function and the theorems quantify over it. -/
def group_clubs_with (ml : List Club → List ClubGroup) (clubs : List Club) : List ClubGroup :=
  if clubs = [] then []
  else
    let predefined_groups := _create_predefined_groups clubs
    let _ml_groups := ml clubs
    let final_groups := predefined_groups
    let grouped_club_ids := (final_groups.map fun g => g.clubs.map fun c => c.id).flatten
    let ungrouped_clubs := clubs.filter fun club => !(grouped_club_ids.contains club.id)
    if ungrouped_clubs = [] then final_groups
    else
      final_groups ++
        [⟨"Miscellaneous",
          "Clubs with unique characteristics that don\x27t fit other categories",
          ungrouped_clubs, 1 / 2⟩]

/-- Model of `group_clubs` with the (unused) ML pass removed: only the rule-based
pass followed by the catch-all pass. -/
def group_clubs_noml (clubs : List Club) : List ClubGroup :=
  if clubs = [] then []
  else
    let predefined_groups := _create_predefined_groups clubs
    let final_groups := predefined_groups
    let grouped_club_ids := (final_groups.map fun g => g.clubs.map fun c => c.id).flatten
    let ungrouped_clubs := clubs.filter fun club => !(grouped_club_ids.contains club.id)
    if ungrouped_clubs = [] then final_groups
    else
      final_groups ++
        [⟨"Miscellaneous",
          "Clubs with unique characteristics that don\x27t fit other categories",
          ungrouped_clubs, 1 / 2⟩]

/-! ## Structure of the grouping result -/

/-- The id set `grouped_club_ids` collected by `group_clubs`. -/
def grouped_ids (clubs : List Club) : List ℤ :=
  ((_create_predefined_groups clubs).map fun g => g.clubs.map fun c => c.id).flatten

/-- The `ungrouped_clubs` list of `group_clubs`. -/
def ungrouped_clubs (clubs : List Club) : List Club :=
  clubs.filter fun club => !(grouped_ids clubs).contains club.id

/-- The catch-all `misc_group` of `group_clubs`. -/
def misc_group (clubs : List Club) : ClubGroup :=
  ⟨"Miscellaneous", "Clubs with unique characteristics that don\x27t fit other categories",
   ungrouped_clubs clubs, 1 / 2⟩

/-- A club whose keyword `coding` matches the Technical & Innovation
definition while its activity `dance` matches the Performing Arts
definition: rule-based membership is not exclusive. -/
def clubFusion : Club :=
  ⟨1, "Fusion", "other", "", ["coding"], ["dance"]⟩

def clubChess : Club :=
  ⟨2, "Chess Club", "board_games", "", ["strategy"], ["tournaments"]⟩

def msgQ : ChatMessage := ⟨⟨2024, 6, 1, 0, 0⟩, "9:00 am", "Alice", "can anyone help?"⟩
def msgR : ChatMessage := ⟨⟨2024, 6, 1, 0, 0⟩, "9:05 am", "Bob", "sure"⟩

/-- The loaded values are "non-negative numeric": every follower field
parses (via `_parse_number`) to a non-negative integer. -/
def nonneg_val (v : PyVal) : Bool :=
  match _parse_number v with
  | .ok n => decide (0 ≤ n)
  | .error _ => false

def nonneg_sm (info : SocialMediaInfo) : Bool :=
  (match info.instagram with
   | none => true
   | some ig => nonneg_val ig.followers) &&
  (match info.linkedin with
   | none => true
   | some li => nonneg_val li.followers)

def nonneg_wa (w : WhatsAppInfo) : Bool :=
  decide (0 ≤ w.engagement_score) && decide (0 ≤ w.response_rate_percentage) &&
  decide (0 ≤ w.event_related) && decide (0 ≤ w.help_requests) &&
  decide (0 ≤ w.collaboration) && decide (0 ≤ w.total_messages) &&
  decide (0 ≤ w.unique_senders)

/-- Predicate for a loaded input with non-negative numeric fields. -/
def nonneg_data (d : EvalData) : Bool :=
  (d.social_media_data.all fun p => nonneg_sm p.2) &&
  (d.whatsapp_data.all fun p => nonneg_wa p.2)

/-- The loaded input of the C1 witness: 10 million Instagram followers,
a LinkedIn record, chat data, and a club record. -/
def c1Data : EvalData :=
  { social_media_data :=
      [(1, { instagram := some { followers := .str "10,000,000", bio := "The official coding club community of the campus, join us" },
             linkedin := some { followers := .int 120, about := "A large about section describing the club in detail, its events, workshops, hackathons and its community of members across campus" } })]
    whatsapp_data :=
      [(1, { engagement_score := 7, response_rate_percentage := 80, event_related := 40,
             help_requests := 10, collaboration := 5, total_messages := 100,
             unique_senders := 25, monthly := [("2024-05", 60), ("2024-06", 40)] })]
    clubs_data := [(1, { name := "SNUC Coding Club" })] }

def c3d : EvalData := ⟨[], [], []⟩

def c3v : VoteSummary := ⟨[("best_club", [("2", 10)])], 10⟩

def c3es : ESData := ⟨[], [], [], some c3v⟩

/-! ## Theorems -/

/-! ## Generic properties of `sort_and_rank` -/

theorem score_le_trans {α : Type} (score : α → ℚ) (a b c : α) :
    score_le score a b = true → score_le score b c = true → score_le score a c = true := by
  simp only [score_le, decide_eq_true_eq]
  exact fun h1 h2 => h2.trans h1

theorem score_le_total {α : Type} (score : α → ℚ) (a b : α) :
    (score_le score a b || score_le score b a) = true := by
  simp only [score_le, Bool.or_eq_true, decide_eq_true_eq]
  exact le_total (score b) (score a)

/-- The output of `sort_and_rank` is sorted into descending score order
(rank assignment does not disturb scores). -/
theorem sort_and_rank_sorted {α : Type} (score : α → ℚ) (setRank : ℕ → α → α)
    (hs : ∀ i x, score (setRank i x) = score x) (l : List α) :
    (sort_and_rank score setRank l).Pairwise fun a b => score b ≤ score a := by
  have h1 := List.sorted_mergeSort (score_le_trans score) (score_le_total score) l
  rw [List.pairwise_iff_getElem] at h1 ⊢
  intro i j hi hj hij
  have hi' : i < (l.mergeSort (score_le score)).length := by
    simpa [sort_and_rank] using hi
  have hj' : j < (l.mergeSort (score_le score)).length := by
    simpa [sort_and_rank] using hj
  have := h1 i j hi' hj' hij
  simp only [score_le, decide_eq_true_eq] at this
  simpa [sort_and_rank, List.getElem_mapIdx, hs] using this

/-- Ranks in the output of `sort_and_rank` are the 1-based positions. -/
theorem sort_and_rank_rank {α : Type} (score : α → ℚ) (setRank : ℕ → α → α) (rank : α → ℕ)
    (hr : ∀ i x, rank (setRank i x) = i) (l : List α)
    (i : ℕ) (h : i < (sort_and_rank score setRank l).length) :
    rank ((sort_and_rank score setRank l)[i]) = i + 1 := by
  simp [sort_and_rank, List.getElem_mapIdx, hr]

/-- Modulo a projection unaffected by rank assignment, `sort_and_rank` is
the stable merge sort. -/
theorem sort_and_rank_map {α β : Type} (score : α → ℚ) (setRank : ℕ → α → α) (π : α → β)
    (hπ : ∀ i x, π (setRank i x) = π x) (l : List α) :
    (sort_and_rank score setRank l).map π = (l.mergeSort (score_le score)).map π := by
  apply List.ext_getElem
  · simp [sort_and_rank]
  · intro n h1 h2
    simp [sort_and_rank, List.getElem_mapIdx, hπ]

/-- The output of `sort_and_rank` is, modulo rank assignment, a
permutation of its input. -/
theorem sort_and_rank_perm {α β : Type} (score : α → ℚ) (setRank : ℕ → α → α) (π : α → β)
    (hπ : ∀ i x, π (setRank i x) = π x) (l : List α) :
    ((sort_and_rank score setRank l).map π).Perm (l.map π) := by
  rw [sort_and_rank_map score setRank π hπ l]
  exact (List.mergeSort_perm l (score_le score)).map π

/-- Stability of the merge sort: filtering by any predicate that pins the
score down to a single value returns the input order unchanged. -/
theorem filter_mergeSort_stable {α : Type} (score : α → ℚ) (p : α → Bool)
    (hp : ∀ a b, p a = true → p b = true → score a = score b) (l : List α) :
    (l.mergeSort (score_le score)).filter p = l.filter p := by
  have hpair : (l.filter p).Pairwise fun a b => score_le score a b = true := by
    apply List.pairwise_of_forall_mem_list
    intro a ha b hb
    have hpa := List.of_mem_filter ha
    have hpb := List.of_mem_filter hb
    simp only [score_le, decide_eq_true_eq]
    exact (hp a b hpa hpb).ge
  have hsub : (l.filter p).Sublist (l.mergeSort (score_le score)) :=
    List.sublist_mergeSort (score_le_trans score) (score_le_total score) hpair
      (List.filter_sublist l)
  have hself : (l.filter p).filter p = l.filter p :=
    List.filter_eq_self.mpr fun a ha => List.of_mem_filter ha
  have hsub2 : (l.filter p).Sublist ((l.mergeSort (score_le score)).filter p) := by
    have := hsub.filter p
    rwa [hself] at this
  have hlen : ((l.mergeSort (score_le score)).filter p).length = (l.filter p).length :=
    ((List.mergeSort_perm l (score_le score)).filter p).length_eq
  exact (hsub2.eq_of_length hlen.symm).symm

/-- Stability of `sort_and_rank`, stated through a rank-erasing projection
`π` that determines the score via `πscore`: among entries of any fixed
score, the output order is the input order. -/
theorem sort_and_rank_stable {α β : Type} (score : α → ℚ) (setRank : ℕ → α → α)
    (π : α → β) (hπ : ∀ i x, π (setRank i x) = π x)
    (πscore : β → ℚ) (hscore : ∀ a, πscore (π a) = score a)
    (l : List α) (s : ℚ) :
    ((sort_and_rank score setRank l).map π).filter (fun b => πscore b = s) =
      (l.map π).filter fun b => πscore b = s := by
  rw [sort_and_rank_map score setRank π hπ l, List.filter_map, List.filter_map]
  congr 1
  apply filter_mergeSort_stable score
  intro a b ha hb
  simp only [Function.comp, decide_eq_true_eq, hscore] at ha hb
  rw [ha, hb]

theorem group_clubs_noml_eq (clubs : List Club) (h : clubs ≠ []) :
    group_clubs_noml clubs =
      if ungrouped_clubs clubs = [] then _create_predefined_groups clubs
      else _create_predefined_groups clubs ++ [misc_group clubs] := by
  simp only [group_clubs_noml, if_neg h, grouped_ids, ungrouped_clubs, misc_group]

theorem mem_create_predefined_iff (clubs : List Club) (g : ClubGroup) :
    g ∈ _create_predefined_groups clubs ↔
      ∃ gd ∈ group_definitions, clubs.filter (club_matches_group gd) ≠ [] ∧
        g = ⟨gd.name, gd.description, clubs.filter (club_matches_group gd),
             _calculate_group_similarity (clubs.filter (club_matches_group gd)) gd.keywords⟩ := by
  simp only [_create_predefined_groups, List.mem_filterMap]
  constructor
  · rintro ⟨gd, hgd, hsome⟩
    by_cases hempty : clubs.filter (club_matches_group gd) = []
    · simp [hempty] at hsome
    · simp only [if_neg hempty, Option.some.injEq] at hsome
      exact ⟨gd, hgd, hempty, hsome.symm⟩
  · rintro ⟨gd, hgd, hne, rfl⟩
    refine ⟨gd, hgd, ?_⟩
    rw [if_neg hne]

theorem mem_predefined_clubs {clubs : List Club} {g : ClubGroup}
    (hg : g ∈ _create_predefined_groups clubs) {c : Club} (hc : c ∈ g.clubs) :
    c ∈ clubs ∧ ∃ gd ∈ group_definitions, club_matches_group gd c = true ∧
      g.group_name = gd.name := by
  rcases (mem_create_predefined_iff clubs g).mp hg with ⟨gd, hgd, _, rfl⟩
  simp only [List.mem_filter] at hc
  exact ⟨hc.1, gd, hgd, hc.2, rfl⟩

theorem mem_grouped_ids {clubs : List Club} {i : ℤ} :
    i ∈ grouped_ids clubs ↔
      ∃ c ∈ clubs, (∃ gd ∈ group_definitions, club_matches_group gd c = true) ∧ c.id = i := by
  constructor
  · intro hi
    rcases List.mem_flatten.mp hi with ⟨l, hl, hil⟩
    rcases List.mem_map.mp hl with ⟨g, hg, rfl⟩
    rcases List.mem_map.mp hil with ⟨c, hc, rfl⟩
    rcases mem_predefined_clubs hg hc with ⟨hcc, gd, hgd, hmatch, _⟩
    exact ⟨c, hcc, ⟨gd, hgd, hmatch⟩, rfl⟩
  · rintro ⟨c, hc, ⟨gd, hgd, hmatch⟩, rfl⟩
    have hcf : c ∈ clubs.filter (club_matches_group gd) := List.mem_filter.mpr ⟨hc, hmatch⟩
    apply List.mem_flatten.mpr
    refine ⟨(clubs.filter (club_matches_group gd)).map fun c => c.id, ?_, ?_⟩
    · apply List.mem_map.mpr
      refine ⟨⟨gd.name, gd.description, clubs.filter (club_matches_group gd),
        _calculate_group_similarity (clubs.filter (club_matches_group gd)) gd.keywords⟩, ?_, rfl⟩
      exact (mem_create_predefined_iff clubs _).mpr
        ⟨gd, hgd, List.ne_nil_of_mem hcf, rfl⟩
    · exact List.mem_map.mpr ⟨c, hcf, rfl⟩

theorem predefined_names : ∀ gd ∈ group_definitions, gd.name ≠ "Miscellaneous" := by decide

/-- Claim C2 (counterexample).  The claim says every club appears in exactly
one group; for the loaded club set `[clubFusion]` the club with id 1
appears in two rule-based groups (`Technical & Innovation` via keyword
`coding` and `Performing Arts` via activity `dance`), not in exactly
one. -/
theorem c2_counterexample :
    ((group_clubs_noml [clubFusion]).countP fun g => g.clubs.any fun c => c.id == 1) = 2 ∧
      ¬ ((group_clubs_noml [clubFusion]).countP fun g => g.clubs.any fun c => c.id == 1) = 1 := by
  constructor
  · decide
  · decide

/-- Claim C2 (amended).  For club sets with distinct ids: every club appears
in at least one group; a club is in the catch-all `Miscellaneous` group
exactly when it matches no rule-based definition; and no club is in both a
rule-based group and the catch-all.  (A club *may*, however, appear in
several rule-based groups, as the counterexample shows — the original
"exactly once" fails.) -/
theorem c2_grouping_cover (clubs : List Club)
    (hids : (clubs.map fun c => c.id).Nodup) (club : Club) (hmem : club ∈ clubs) :
    (∃ g ∈ group_clubs_noml clubs, club ∈ g.clubs) ∧
    ((∀ gd ∈ group_definitions, club_matches_group gd club = false) ↔
      ∃ g ∈ group_clubs_noml clubs, g.group_name = "Miscellaneous" ∧ club ∈ g.clubs) ∧
    ¬ ((∃ g ∈ group_clubs_noml clubs, g.group_name ≠ "Miscellaneous" ∧ club ∈ g.clubs) ∧
       ∃ g ∈ group_clubs_noml clubs, g.group_name = "Miscellaneous" ∧ club ∈ g.clubs) := by
  have hne : clubs ≠ [] := List.ne_nil_of_mem hmem
  have hE := group_clubs_noml_eq clubs hne
  -- a predefined group is always part of the output
  have hpre : ∀ g ∈ _create_predefined_groups clubs, g ∈ group_clubs_noml clubs := by
    intro g hg
    rw [hE]
    by_cases hu : ungrouped_clubs clubs = []
    · simpa [hu] using hg
    · simp only [if_neg hu, List.mem_append]
      exact Or.inl hg
  -- case: the club matches some rule-based definition
  have hrule : ∀ gd ∈ group_definitions, club_matches_group gd club = true →
      ∃ g ∈ group_clubs_noml clubs, g.group_name = gd.name ∧ club ∈ g.clubs := by
    intro gd hgd hmatch
    have hcf : club ∈ clubs.filter (club_matches_group gd) := List.mem_filter.mpr ⟨hmem, hmatch⟩
    refine ⟨⟨gd.name, gd.description, clubs.filter (club_matches_group gd),
      _calculate_group_similarity (clubs.filter (club_matches_group gd)) gd.keywords⟩, ?_, rfl, hcf⟩
    exact hpre _ ((mem_create_predefined_iff clubs _).mpr ⟨gd, hgd, List.ne_nil_of_mem hcf, rfl⟩)
  -- case: the club matches no rule-based definition
  have hnomatch : (∀ gd ∈ group_definitions, club_matches_group gd club = false) →
      ∃ g ∈ group_clubs_noml clubs, g.group_name = "Miscellaneous" ∧ club ∈ g.clubs := by
    intro hall
    have hid : club.id ∉ grouped_ids clubs := by
      intro hid
      rcases mem_grouped_ids.mp hid with ⟨c, hc, ⟨gd, hgd, hmatch⟩, hcid⟩
      have : c = club := List.inj_on_of_nodup_map hids hc hmem hcid
      rw [this] at hmatch
      rw [hall gd hgd] at hmatch
      exact Bool.false_ne_true hmatch
    have hu : club ∈ ungrouped_clubs clubs := by
      apply List.mem_filter.mpr
      refine ⟨hmem, ?_⟩
      simp only [Bool.not_eq_true']
      rw [Bool.eq_false_iff]
      intro hcontains
      exact hid (List.elem_iff.mp hcontains)
    have hune : ungrouped_clubs clubs ≠ [] := List.ne_nil_of_mem hu
    refine ⟨misc_group clubs, ?_, rfl, hu⟩
    rw [hE, if_neg hune]
    simp
  -- membership in a Miscellaneous-named group forces no rule-based match
  have hmiscOnly : (∃ g ∈ group_clubs_noml clubs, g.group_name = "Miscellaneous" ∧ club ∈ g.clubs) →
      ∀ gd ∈ group_definitions, club_matches_group gd club = false := by
    rintro ⟨g, hg, hname, hc⟩ gd hgd
    rw [hE] at hg
    have hgm : g = misc_group clubs := by
      by_cases hu : ungrouped_clubs clubs = []
      · rw [if_pos hu] at hg
        rcases mem_predefined_clubs hg hc with ⟨_, gd', hgd', _, hname'⟩
        exact absurd (hname ▸ hname'.symm) (predefined_names gd' hgd')
      · rw [if_neg hu, List.mem_append] at hg
        rcases hg with hg | hg
        · rcases mem_predefined_clubs hg hc with ⟨_, gd', hgd', _, hname'⟩
          exact absurd (hname ▸ hname'.symm) (predefined_names gd' hgd')
        · simpa using hg
    rw [hgm] at hc
    have hid : ¬ (grouped_ids clubs).contains club.id = true := by
      have := List.of_mem_filter hc
      simpa using this
    by_contra hmatch
    apply hid
    exact List.elem_iff.mpr
      (mem_grouped_ids.mpr ⟨club, hmem, ⟨gd, hgd, by simpa using hmatch⟩, rfl⟩)
  refine ⟨?_, ⟨hnomatch, hmiscOnly⟩, ?_⟩
  · by_cases hA : ∀ gd ∈ group_definitions, club_matches_group gd club = false
    · rcases hnomatch hA with ⟨g, hg, _, hc⟩
      exact ⟨g, hg, hc⟩
    · push_neg at hA
      rcases hA with ⟨gd, hgd, hmatch⟩
      rcases hrule gd hgd (by simpa using hmatch) with ⟨g, hg, _, hc⟩
      exact ⟨g, hg, hc⟩
  · rintro ⟨⟨g1, hg1, hname1, hc1⟩, hmisc⟩
    have hall := hmiscOnly hmisc
    rw [hE] at hg1
    have hg1' : g1 ∈ _create_predefined_groups clubs := by
      by_cases hu : ungrouped_clubs clubs = []
      · rwa [if_pos hu] at hg1
      · rw [if_neg hu, List.mem_append] at hg1
        rcases hg1 with hg1 | hg1
        · exact hg1
        · exfalso
          apply hname1
          simp only [List.mem_singleton] at hg1
          rw [hg1]
          rfl
    rcases mem_predefined_clubs hg1' hc1 with ⟨_, gd, hgd, hmatch, _⟩
    rw [hall gd hgd] at hmatch
    exact Bool.false_ne_true hmatch

/-- Witness for C2's amended theorem at the one-club set `[clubChess]`
(which matches no rule-based definition and lands in the catch-all). -/
theorem c2_witness :
    (([clubChess].map fun c => c.id).Nodup ∧ clubChess ∈ [clubChess]) ∧
    ((∃ g ∈ group_clubs_noml [clubChess], clubChess ∈ g.clubs) ∧
    ((∀ gd ∈ group_definitions, club_matches_group gd clubChess = false) ↔
      ∃ g ∈ group_clubs_noml [clubChess], g.group_name = "Miscellaneous" ∧ clubChess ∈ g.clubs) ∧
    ¬ ((∃ g ∈ group_clubs_noml [clubChess], g.group_name ≠ "Miscellaneous" ∧ clubChess ∈ g.clubs) ∧
       ∃ g ∈ group_clubs_noml [clubChess], g.group_name = "Miscellaneous" ∧ clubChess ∈ g.clubs)) :=
  ⟨⟨by decide, by decide⟩, c2_grouping_cover [clubChess] (by decide) clubChess (by decide)⟩

/-- Claim C10: `group_clubs` computes the ML clustering pass but discards
its result, so for *every* possible outcome of that pass the returned
groups equal those of the rule-based pass followed by the catch-all pass
alone. -/
theorem c10_ml_pass_no_effect (ml : List Club → List ClubGroup) (clubs : List Club) :
    group_clubs_with ml clubs = group_clubs_noml clubs := rfl

/-- Claim C8 (code_bug evidence).  `_parse_number` does map `"1,234"` to the
integer 1234 and `"N/A"` to 0, as the claim's examples state; but on the
strings `"inf"` and `"1e400"` the cleaned text parses (as a `float`) to an
infinity, and `int(float(cleaned))` then raises `OverflowError`, which the
source's `except ValueError` does not catch — the function can raise,
contradicting the claim's "without ever raising". -/
theorem c8_parse_number_eval :
    _parse_number (.str "1,234") = .ok 1234 ∧
    _parse_number (.str "N/A") = .ok 0 ∧
    _parse_number (.str "inf") = .error () ∧
    _parse_number (.str "1e400") = .error () :=
  ⟨by decide, by decide, by decide, by decide⟩

/-! ## Properties of `pyStrip` -/

theorem dropWhile_head_false {p : Char → Bool} :
    ∀ {l : List Char} {c : Char} {t : List Char}, l.dropWhile p = c :: t → p c = false := by
  intro l
  induction l with
  | nil => intro c t h; simp at h
  | cons a as ih =>
    intro c t h
    by_cases hp : p a
    · rw [List.dropWhile_cons, if_pos hp] at h
      exact ih h
    · rw [List.dropWhile_cons, if_neg hp] at h
      cases h
      simpa using hp

theorem dropWhile_of_head_false {p : Char → Bool} {c : Char} {t : List Char}
    (h : p c = false) : (c :: t).dropWhile p = c :: t := by
  simp [List.dropWhile_cons, h]

theorem dropWhile_idem (p : Char → Bool) (l : List Char) :
    (l.dropWhile p).dropWhile p = l.dropWhile p := by
  cases hd : l.dropWhile p with
  | nil => rfl
  | cons c t => exact dropWhile_of_head_false (dropWhile_head_false hd)

/-- Python's `strip` is idempotent: a stripped string strips to itself. -/
theorem pyStrip_idem (cs : List Char) : pyStrip (pyStrip cs) = pyStrip cs := by
  unfold pyStrip
  set p := isSpaceChar with hp
  set A := cs.dropWhile p with hA
  set B := A.reverse.dropWhile p with hB
  have h1 : B.reverse.dropWhile p = B.reverse := by
    cases hX : B.reverse with
    | nil => rfl
    | cons x xs =>
      have hsuf : B <:+ A.reverse := by rw [hB]; exact List.dropWhile_suffix p
      rcases hsuf with ⟨s, hs⟩
      have hpre : B.reverse ++ s.reverse = A := by
        have := congrArg List.reverse hs
        simpa [List.reverse_append] using this
      rw [hX] at hpre
      have hcs : cs.dropWhile p = x :: (xs ++ s.reverse) := by
        rw [← hA, ← hpre]
        simp
      have hx : p x = false := dropWhile_head_false hcs
      exact dropWhile_of_head_false hx
  rw [h1, List.reverse_reverse, hB, dropWhile_idem]

/-- Claim C5: for every input line, `parse_whatsapp_message` either returns
(when the regex matches and the date parts are in calendar range) the
message record with whitespace-trimmed time/sender/body and the two-digit
year interpreted as `2000 + YY`, or returns `None` — both when the line
does not match the pattern and when its date components are out of range.
The embedded function is total (the source wraps the date logic in a bare
`except` and the regex engine itself cannot raise), which is the claim's
"never raises an exception". -/
theorem c5_parse_contract (line : String) :
    (match_line (pyStripS line) = none → parse_whatsapp_message line = none) ∧
    (∀ g, match_line (pyStripS line) = some g →
      (valid_date_parts (year_rule g.year) (digitsVal g.month) (digitsVal g.day) →
        parse_whatsapp_message line =
          some ⟨mkDatetime (year_rule g.year) (digitsVal g.month) (digitsVal g.day),
                String.mk (pyStrip g.time), String.mk (pyStrip g.sender),
                String.mk (pyStrip g.message)⟩) ∧
      (¬ valid_date_parts (year_rule g.year) (digitsVal g.month) (digitsVal g.day) →
        parse_whatsapp_message line = none) ∧
      (g.year.length = 2 → year_rule g.year = 2000 + digitsVal g.year)) ∧
    (∀ m, parse_whatsapp_message line = some m →
      pyStrip m.sender.data = m.sender.data ∧ pyStrip m.message.data = m.message.data ∧
      pyStrip m.time.data = m.time.data ∧
      valid_date_parts m.date.year m.date.month m.date.day ∧
      m.date.hour = 0 ∧ m.date.minute = 0) := by
  refine ⟨?_, ?_, ?_⟩
  · intro h
    simp [parse_whatsapp_message, h]
  · intro g hg
    refine ⟨?_, ?_, ?_⟩
    · intro hv
      simp only [parse_whatsapp_message, hg, Option.some_bind, mk_message]
      rw [if_pos hv]
    · intro hv
      simp only [parse_whatsapp_message, hg, Option.some_bind, mk_message]
      rw [if_neg hv]
    · intro h2
      simp [year_rule, h2]
  · intro m hm
    rcases Option.bind_eq_some.mp hm with ⟨g, hg, hmk⟩
    simp only [mk_message] at hmk
    by_cases hv : valid_date_parts (year_rule g.year) (digitsVal g.month) (digitsVal g.day)
    · rw [if_pos hv] at hmk
      cases hmk
      exact ⟨pyStrip_idem _, pyStrip_idem _, pyStrip_idem _, hv, rfl, rfl⟩
    · rw [if_neg hv] at hmk
      cases hmk

/-- Witness for C5 at a concrete line with a two-digit year, an am/pm
marker and padding whitespace. -/
theorem c5_witness :
    parse_whatsapp_message "5/6/24, 10:15 pm - Bob: need help?" =
      some ⟨mkDatetime 2024 6 5, "10:15 pm", "Bob", "need help?"⟩ ∧
    year_rule "24".data = 2000 + digitsVal "24".data ∧
    parse_whatsapp_message "1/1/24, 10:15 - : hello" =
      some ⟨mkDatetime 2024 1 1, "10:15", "", "hello"⟩ := by
  have h := c5_parse_contract "5/6/24, 10:15 pm - Bob: need help?"
  have hG : match_line (pyStripS "5/6/24, 10:15 pm - Bob: need help?") =
      some ⟨"5".data, "6".data, "24".data, "10:15 pm".data, "Bob".data, "need help?".data⟩ := by
    decide
  have h2 := c5_parse_contract "1/1/24, 10:15 - : hello"
  have hG2 : match_line (pyStripS "1/1/24, 10:15 - : hello") =
      some ⟨"1".data, "1".data, "24".data, "10:15 ".data, [' '], "hello".data⟩ := by
    decide
  refine ⟨?_, ?_, ?_⟩
  · have h1 := (h.2.1 _ hG).1 (by decide)
    exact h1.trans (by decide)
  · exact (h.2.1 _ hG).2.2 (by decide)
  · have h3 := (h2.2.1 _ hG2).1 (by decide)
    exact h3.trans (by decide)

/-- Claim C6 (code_bug evidence).  The monthly histogram is correct: the
message sent on 12/5/24 is bucketed under `"2024-05"`.  But the parser
stores the time-of-day only as the raw string (`"2:45 pm"`, i.e. hour 14)
and builds `datetime(year, month, day)` whose `hour` is 0, so
`_analyze_hourly_activity` buckets *every* message — including this
2:45 pm one — under hour 0 instead of the message's own hour. -/
theorem c6_hourly_bucket_is_zero :
    parse_whatsapp_message "12/5/24, 2:45 pm - Alice: see you" =
      some ⟨⟨2024, 5, 12, 0, 0⟩, "2:45 pm", "Alice", "see you"⟩ ∧
    _analyze_monthly_activity [⟨⟨2024, 5, 12, 0, 0⟩, "2:45 pm", "Alice", "see you"⟩] =
      [("2024-05", 1)] ∧
    _analyze_hourly_activity [⟨⟨2024, 5, 12, 0, 0⟩, "2:45 pm", "Alice", "see you"⟩] =
      [(0, 1)] ∧
    (mkDatetime 2024 5 12).hour = 0 :=
  ⟨by decide, by decide, by decide, rfl⟩

/-- Claim C7 (counterexample).  For an unreadable chat log the source
returns the bare `{}` — a dictionary carrying *no* `total_messages`,
`unique_senders` or `engagement_score` keys — not the all-zero
ChatMetrics record the claim describes. -/
theorem c7_counterexample :
    analyze_chat_file none = .emptyDict ∧
    analyze_chat_file none ≠ .partialRecord 0 0 0 :=
  ⟨rfl, by decide⟩

/-- Claim C7 (amended): a chat log with zero valid (parseable) lines —
including the empty file — yields the literal record with
`total_messages = 0`, `unique_senders = 0`, `engagement_score = 0.0`;
an *unreadable* file instead yields the empty dictionary `{}` (whose
absent fields downstream readers default to zero).  In both cases the
function returns normally — no error is surfaced. -/
theorem c7_zero_valid_lines (lines : List String)
    (h : lines.filterMap parse_whatsapp_message = []) :
    analyze_chat_file (some lines) = .partialRecord 0 0 0 ∧
    analyze_chat_file none = .emptyDict := by
  constructor
  · simp only [analyze_chat_file, h]
  · rfl

/-- Witness for C7's amended theorem on a log whose single line is not a
chat message. -/
theorem c7_witness :
    ["not a chat line"].filterMap parse_whatsapp_message = [] ∧
    (analyze_chat_file (some ["not a chat line"]) = .partialRecord 0 0 0 ∧
     analyze_chat_file none = .emptyDict) :=
  ⟨by decide, c7_zero_valid_lines ["not a chat line"] (by decide)⟩

/-- The counters accumulated by the response loop are the filtered counts
over the question list. -/
theorem response_loop_spec (messages : List ChatMessage) (l : List (ℕ × ChatMessage)) :
    (response_loop messages l).1 =
      (l.filter fun p => (quick_scan messages p.1 p.2).isSome).length ∧
    (response_loop messages l).2 =
      l.filterMap fun p => quick_scan messages p.1 p.2 := by
  induction l with
  | nil => exact ⟨rfl, rfl⟩
  | cons hd tl ih =>
    cases hd with
    | mk i q =>
      simp only [response_loop]
      cases hscan : quick_scan messages i q with
      | none => simp [List.filter_cons, List.filterMap_cons, hscan, ih.1, ih.2]
      | some t => simp [List.filter_cons, List.filterMap_cons, hscan, ih.1, ih.2]

/-- Claim C9: the response rate is 0 when there are no question-like
messages (the zero divisor is never used: the source guards the division
with `total_questions > 0`); with at least one question the rate is
`quick_responses / total_questions * 100`, where the quick responses are
exactly the questions whose scan — first message from a different sender
among the at most 5 following ones, within 2 hours (`quick_scan`) —
succeeds. -/
theorem c9_response_rate (messages : List ChatMessage) :
    (_analyze_response_patterns messages).total_questions =
      (question_messages messages).length ∧
    ((_analyze_response_patterns messages).total_questions = 0 →
      (_analyze_response_patterns messages).response_rate_percentage = 0) ∧
    (0 < (_analyze_response_patterns messages).total_questions →
      (_analyze_response_patterns messages).response_rate_percentage =
        ((_analyze_response_patterns messages).quick_responses : ℚ) /
          ((_analyze_response_patterns messages).total_questions : ℚ) * 100) ∧
    (_analyze_response_patterns messages).quick_responses =
      ((question_messages messages).filter
        fun p => (quick_scan messages p.1 p.2).isSome).length := by
  have hl := response_loop_spec messages (question_messages messages)
  refine ⟨rfl, ?_, ?_, hl.1⟩
  · intro h0
    simp only [_analyze_response_patterns] at h0 ⊢
    rw [if_neg]
    omega
  · intro hpos
    simp only [_analyze_response_patterns] at hpos ⊢
    rw [if_pos hpos]

/-- Witness for C9 on a two-message log with one question. -/
theorem c9_witness :
    0 < (_analyze_response_patterns [msgQ, msgR]).total_questions ∧
    (_analyze_response_patterns [msgQ, msgR]).response_rate_percentage =
      ((_analyze_response_patterns [msgQ, msgR]).quick_responses : ℚ) /
        ((_analyze_response_patterns [msgQ, msgR]).total_questions : ℚ) * 100 :=
  ⟨by decide, (c9_response_rate [msgQ, msgR]).2.2.1 (by decide)⟩

/-! ## C1: non-negative inputs and score bounds -/

theorem lookup_mem {α β : Type} [BEq α] :
    ∀ {l : List (α × β)} {k : α} {v : β}, l.lookup k = some v → ∃ k', (k', v) ∈ l := by
  intro l
  induction l with
  | nil => intro k v h; simp [List.lookup] at h
  | cons hd tl ih =>
    intro k v h
    cases hd with
    | mk k' b =>
      simp only [List.lookup] at h
      cases hbeq : (k == k') with
      | true =>
        rw [hbeq] at h
        simp only [Option.some.injEq] at h
        exact ⟨k', by rw [h]; exact List.mem_cons_self _ _⟩
      | false =>
        rw [hbeq] at h
        rcases ih h with ⟨k'', hk''⟩
        exact ⟨k'', List.mem_cons_of_mem _ hk''⟩

theorem nonneg_val_spec {v : PyVal} (h : nonneg_val v = true) :
    ∃ n, _parse_number v = .ok n ∧ (0 : ℤ) ≤ n := by
  unfold nonneg_val at h
  cases hp : _parse_number v with
  | ok n =>
    rw [hp] at h
    exact ⟨n, rfl, by simpa using h⟩
  | error e =>
    rw [hp] at h
    simp at h

theorem nonneg_data_sm {d : EvalData} {cid : ℤ} {info : SocialMediaInfo}
    (h : nonneg_data d = true) (hlk : d.social_media_data.lookup cid = some info) :
    nonneg_sm info = true := by
  rcases lookup_mem hlk with ⟨k', hmem⟩
  have h' := h
  rw [nonneg_data, Bool.and_eq_true] at h'
  have := List.all_eq_true.mp h'.1 (k', info) hmem
  simpa using this

theorem nonneg_data_wa {d : EvalData} {cid : ℤ} {chat : WhatsAppInfo}
    (h : nonneg_data d = true) (hlk : d.whatsapp_data.lookup cid = some chat) :
    nonneg_wa chat = true := by
  rcases lookup_mem hlk with ⟨k', hmem⟩
  have h' := h
  rw [nonneg_data, Bool.and_eq_true] at h'
  have := List.all_eq_true.mp h'.2 (k', chat) hmem
  simpa using this

theorem bio_quality_nonneg (c : Prop) [Decidable c] (a b : ℚ) (ha : 0 ≤ a) (hb : 0 ≤ b) :
    0 ≤ if c then a else b := by
  split
  · exact ha
  · exact hb

theorem social_media_score_bounds (d : EvalData) (cid : ℤ) (h : nonneg_data d = true) :
    ∃ q, calculate_social_media_score d cid = .ok q ∧ 0 ≤ q ∧ q ≤ 10 := by
  unfold calculate_social_media_score
  cases hlk : d.social_media_data.lookup cid with
  | none => exact ⟨0, rfl, le_refl 0, by norm_num⟩
  | some info =>
    dsimp only
    have hinfo := nonneg_data_sm h hlk
    rw [nonneg_sm, Bool.and_eq_true] at hinfo
    have hIG : ∀ ig, info.instagram = some ig → nonneg_val ig.followers = true := by
      intro ig hig
      have h1 := hinfo.1
      rw [hig] at h1
      exact h1
    have hLI : ∀ li, info.linkedin = some li → nonneg_val li.followers = true := by
      intro li hli
      have h2 := hinfo.2
      rw [hli] at h2
      exact h2
    rcases hig : info.instagram with _ | ig <;> rcases hli : info.linkedin with _ | li <;>
      dsimp only
    · exact ⟨0, rfl, le_refl 0, by norm_num⟩
    · obtain ⟨n, hp, hn⟩ := nonneg_val_spec (hLI li hli)
      rw [hp]
      have hnq : (0 : ℚ) ≤ (n : ℚ) := by exact_mod_cast hn
      refine ⟨_, rfl, ?_, ?_⟩
      · apply le_min
        · apply div_nonneg
          · have h1 : 0 ≤ min ((n : ℚ) / 50) 4 :=
              le_min (div_nonneg hnq (by norm_num)) (by norm_num)
            have h2 : (0 : ℚ) ≤ if 100 < li.about.length ∧ pyInS "N/A" li.about = false
                then 4 else 1 := bio_quality_nonneg _ 4 1 (by norm_num) (by norm_num)
            have h3 : 0 ≤ min (min ((n : ℚ) / 50) 4 +
                (if 100 < li.about.length ∧ pyInS "N/A" li.about = false then (4:ℚ) else 1)) 8 :=
              le_min (by linarith) (by norm_num)
            linarith
          · norm_num
        · norm_num
      · exact min_le_right _ _
    · obtain ⟨n, hp, hn⟩ := nonneg_val_spec (hIG ig hig)
      rw [hp]
      have hnq : (0 : ℚ) ≤ (n : ℚ) := by exact_mod_cast hn
      refine ⟨_, rfl, ?_, ?_⟩
      · apply le_min
        · apply div_nonneg
          · have h1 : 0 ≤ min ((n : ℚ) / 100) 5 :=
              le_min (div_nonneg hnq (by norm_num)) (by norm_num)
            have h2 : (0 : ℚ) ≤ if 50 < ig.bio.length then (3:ℚ) else 1 :=
              bio_quality_nonneg _ 3 1 (by norm_num) (by norm_num)
            have h3 : 0 ≤ min (min ((n : ℚ) / 100) 5 +
                (if 50 < ig.bio.length then (3:ℚ) else 1)) 8 :=
              le_min (by linarith) (by norm_num)
            linarith
          · norm_num
        · norm_num
      · exact min_le_right _ _
    · obtain ⟨n1, hp1, hn1⟩ := nonneg_val_spec (hIG ig hig)
      obtain ⟨n2, hp2, hn2⟩ := nonneg_val_spec (hLI li hli)
      rw [hp1, hp2]
      have hnq1 : (0 : ℚ) ≤ (n1 : ℚ) := by exact_mod_cast hn1
      have hnq2 : (0 : ℚ) ≤ (n2 : ℚ) := by exact_mod_cast hn2
      refine ⟨_, rfl, ?_, ?_⟩
      · apply le_min
        · apply div_nonneg
          · have h1 : 0 ≤ min ((n1 : ℚ) / 100) 5 :=
              le_min (div_nonneg hnq1 (by norm_num)) (by norm_num)
            have h2 : (0 : ℚ) ≤ if 50 < ig.bio.length then (3:ℚ) else 1 :=
              bio_quality_nonneg _ 3 1 (by norm_num) (by norm_num)
            have h3 : 0 ≤ min (min ((n1 : ℚ) / 100) 5 +
                (if 50 < ig.bio.length then (3:ℚ) else 1)) 8 :=
              le_min (by linarith) (by norm_num)
            have h4 : 0 ≤ min ((n2 : ℚ) / 50) 4 :=
              le_min (div_nonneg hnq2 (by norm_num)) (by norm_num)
            have h5 : (0 : ℚ) ≤ if 100 < li.about.length ∧ pyInS "N/A" li.about = false
                then 4 else 1 := bio_quality_nonneg _ 4 1 (by norm_num) (by norm_num)
            have h6 : 0 ≤ min (min ((n2 : ℚ) / 50) 4 +
                (if 100 < li.about.length ∧ pyInS "N/A" li.about = false then (4:ℚ) else 1)) 8 :=
              le_min (by linarith) (by norm_num)
            linarith
          · norm_num
        · norm_num
      · exact min_le_right _ _

theorem chat_engagement_score_bounds (d : EvalData) (cid : ℤ) (h : nonneg_data d = true) :
    0 ≤ calculate_chat_engagement_score d cid ∧ calculate_chat_engagement_score d cid ≤ 10 := by
  unfold calculate_chat_engagement_score
  cases hlk : d.whatsapp_data.lookup cid with
  | none => norm_num
  | some chat =>
    dsimp only
    have hw := nonneg_data_wa h hlk
    rw [nonneg_wa] at hw
    simp only [Bool.and_eq_true, decide_eq_true_eq] at hw
    obtain ⟨⟨⟨⟨⟨⟨h1, h2⟩, h3⟩, h4⟩, h5⟩, h6⟩, h7⟩ := hw
    have hrb : (0:ℚ) ≤ min (chat.response_rate_percentage / 100 * 2) 2 :=
      le_min (mul_nonneg (div_nonneg h2 (by norm_num)) (by norm_num)) (by norm_num)
    have hmax : (0:ℚ) < max chat.total_messages 1 :=
      lt_of_lt_of_le one_pos (le_max_right _ _)
    have hcb : (0:ℚ) ≤ min (chat.event_related / max chat.total_messages 1 * 10) 1 :=
      le_min (mul_nonneg (div_nonneg h3 hmax.le) (by norm_num)) (by norm_num)
    exact ⟨le_min (by linarith) (by norm_num), min_le_right _ _⟩

theorem combined_reach_score_bounds (d : EvalData) (cid : ℤ) (h : nonneg_data d = true) :
    ∃ q, calculate_combined_reach_score d cid = .ok q ∧ 0 ≤ q ∧ q ≤ 10 := by
  have hwa : (0:ℚ) ≤ (match d.whatsapp_data.lookup cid with
      | none => (0:ℚ)
      | some chat => chat.unique_senders * 2) := by
    cases hlk2 : d.whatsapp_data.lookup cid with
    | none => norm_num
    | some chat =>
      have hw := nonneg_data_wa h hlk2
      rw [nonneg_wa] at hw
      simp only [Bool.and_eq_true, decide_eq_true_eq] at hw
      dsimp only
      exact mul_nonneg hw.2 (by norm_num)
  unfold calculate_combined_reach_score
  cases hlk : d.social_media_data.lookup cid with
  | none =>
    dsimp only at hwa ⊢
    exact ⟨_, rfl, le_min (div_nonneg (by linarith) (by norm_num)) (by norm_num),
      min_le_right _ _⟩
  | some info =>
    dsimp only at hwa ⊢
    have hinfo := nonneg_data_sm h hlk
    rw [nonneg_sm, Bool.and_eq_true] at hinfo
    have hIG : ∀ ig, info.instagram = some ig → nonneg_val ig.followers = true := by
      intro ig hig
      have h1 := hinfo.1
      rw [hig] at h1
      exact h1
    have hLI : ∀ li, info.linkedin = some li → nonneg_val li.followers = true := by
      intro li hli
      have h2 := hinfo.2
      rw [hli] at h2
      exact h2
    rcases hig : info.instagram with _ | ig <;> rcases hli : info.linkedin with _ | li <;>
      dsimp only
    · exact ⟨_, rfl, le_min (div_nonneg (by push_cast; linarith) (by norm_num)) (by norm_num),
        min_le_right _ _⟩
    · obtain ⟨n, hp, hn⟩ := nonneg_val_spec (hLI li hli)
      rw [hp]
      refine ⟨_, rfl, le_min (div_nonneg ?_ (by norm_num)) (by norm_num), min_le_right _ _⟩
      have : (0:ℚ) ≤ ((0 + n : ℤ) : ℚ) := by exact_mod_cast by omega
      linarith
    · obtain ⟨n, hp, hn⟩ := nonneg_val_spec (hIG ig hig)
      rw [hp]
      refine ⟨_, rfl, le_min (div_nonneg ?_ (by norm_num)) (by norm_num), min_le_right _ _⟩
      have : (0:ℚ) ≤ ((n + 0 : ℤ) : ℚ) := by exact_mod_cast by omega
      linarith
    · obtain ⟨n1, hp1, hn1⟩ := nonneg_val_spec (hIG ig hig)
      obtain ⟨n2, hp2, hn2⟩ := nonneg_val_spec (hLI li hli)
      rw [hp1, hp2]
      refine ⟨_, rfl, le_min (div_nonneg ?_ (by norm_num)) (by norm_num), min_le_right _ _⟩
      have : (0:ℚ) ≤ ((n1 + n2 : ℤ) : ℚ) := by exact_mod_cast by omega
      linarith

theorem community_activity_score_bounds (d : EvalData) (cid : ℤ) (h : nonneg_data d = true) :
    0 ≤ calculate_community_activity_score d cid ∧
      calculate_community_activity_score d cid ≤ 10 := by
  unfold calculate_community_activity_score
  cases hlk : d.whatsapp_data.lookup cid with
  | none => norm_num
  | some chat =>
    dsimp only
    have hw := nonneg_data_wa h hlk
    rw [nonneg_wa] at hw
    simp only [Bool.and_eq_true, decide_eq_true_eq] at hw
    obtain ⟨⟨⟨⟨⟨⟨h1, h2⟩, h3⟩, h4⟩, h5⟩, h6⟩, h7⟩ := hw
    have hms : (0:ℚ) ≤ min (chat.total_messages / 200) 5 :=
      le_min (div_nonneg h6 (by norm_num)) (by norm_num)
    have hps : (0:ℚ) ≤ min (chat.unique_senders / 20) 3 :=
      le_min (div_nonneg h7 (by norm_num)) (by norm_num)
    have hcs : (0:ℚ) ≤
        min (((chat.monthly.filter fun p => 0 < p.2).length : ℚ) / 6) 2 :=
      le_min (div_nonneg (Nat.cast_nonneg _) (by norm_num)) (by norm_num)
    exact ⟨le_min (by linarith) (by norm_num), min_le_right _ _⟩

theorem content_quality_score_bounds (d : EvalData) (cid : ℤ) (h : nonneg_data d = true) :
    0 ≤ calculate_content_quality_score d cid ∧ calculate_content_quality_score d cid ≤ 10 := by
  unfold calculate_content_quality_score
  dsimp only
  refine ⟨le_min (add_nonneg ?_ ?_) (by norm_num), min_le_right _ _⟩
  · cases hlk : d.social_media_data.lookup cid with
    | none => norm_num
    | some info =>
      dsimp only
      apply add_nonneg
      · rcases info.instagram with _ | ig
        · norm_num
        · dsimp only
          split
          · norm_num
          · norm_num
      · rcases info.linkedin with _ | li
        · norm_num
        · dsimp only
          split
          · norm_num
          · norm_num
  · cases hlk : d.whatsapp_data.lookup cid with
    | none => norm_num
    | some chat =>
      dsimp only
      have hw := nonneg_data_wa h hlk
      rw [nonneg_wa] at hw
      simp only [Bool.and_eq_true, decide_eq_true_eq] at hw
      obtain ⟨⟨⟨⟨⟨⟨h1, h2⟩, h3⟩, h4⟩, h5⟩, h6⟩, h7⟩ := hw
      have hmax : (0:ℚ) < max chat.total_messages 1 :=
        lt_of_lt_of_le one_pos (le_max_right _ _)
      have ha : (0:ℚ) ≤ min (chat.event_related / max chat.total_messages 1 * 30) 3 :=
        le_min (mul_nonneg (div_nonneg h3 hmax.le) (by norm_num)) (by norm_num)
      have hb : (0:ℚ) ≤ min ((chat.help_requests / max chat.total_messages 1 +
          chat.collaboration / max chat.total_messages 1) * 20) 2 :=
        le_min (mul_nonneg (add_nonneg (div_nonneg h4 hmax.le) (div_nonneg h5 hmax.le))
          (by norm_num)) (by norm_num)
      linarith

/-- Claim C1: the five declared weights sum to 1.0, and for any loaded input
whose numeric fields are non-negative, `evaluate_club` succeeds with every
one of the five sub-scores in [0, 10]; the overall score is exactly the
weighted sum of the sub-scores and therefore also lies in [0, 10],
regardless of input magnitude. -/
theorem c1_scores_bounded (d : EvalData) (club_id : ℤ) (h : nonneg_data d = true) :
    weight_social_media + weight_chat_engagement + weight_reach +
      weight_community_activity + weight_content_quality = 1 ∧
    ∃ r, evaluate_club d club_id = .ok r ∧
      0 ≤ r.social_media_score ∧ r.social_media_score ≤ 10 ∧
      0 ≤ r.chat_engagement_score ∧ r.chat_engagement_score ≤ 10 ∧
      0 ≤ r.combined_reach_score ∧ r.combined_reach_score ≤ 10 ∧
      0 ≤ r.community_activity_score ∧ r.community_activity_score ≤ 10 ∧
      0 ≤ r.content_quality_score ∧ r.content_quality_score ≤ 10 ∧
      r.overall_score =
        r.social_media_score * weight_social_media +
        r.chat_engagement_score * weight_chat_engagement +
        r.combined_reach_score * weight_reach +
        r.community_activity_score * weight_community_activity +
        r.content_quality_score * weight_content_quality ∧
      0 ≤ r.overall_score ∧ r.overall_score ≤ 10 := by
  obtain ⟨q1, hq1, h1a, h1b⟩ := social_media_score_bounds d club_id h
  obtain ⟨h2a, h2b⟩ := chat_engagement_score_bounds d club_id h
  obtain ⟨q3, hq3, h3a, h3b⟩ := combined_reach_score_bounds d club_id h
  obtain ⟨h4a, h4b⟩ := community_activity_score_bounds d club_id h
  obtain ⟨h5a, h5b⟩ := content_quality_score_bounds d club_id h
  refine ⟨by norm_num [weight_social_media, weight_chat_engagement, weight_reach,
    weight_community_activity, weight_content_quality], ?_⟩
  have hev : evaluate_club d club_id = .ok
      { club_id := club_id
        club_name :=
          match d.clubs_data.lookup club_id with
          | some info => info.name
          | none => "Club " ++ intKey club_id
        overall_score :=
          q1 * weight_social_media +
          calculate_chat_engagement_score d club_id * weight_chat_engagement +
          q3 * weight_reach +
          calculate_community_activity_score d club_id * weight_community_activity +
          calculate_content_quality_score d club_id * weight_content_quality
        social_media_score := q1
        chat_engagement_score := calculate_chat_engagement_score d club_id
        combined_reach_score := q3
        community_activity_score := calculate_community_activity_score d club_id
        content_quality_score := calculate_content_quality_score d club_id
        rank := 0 } := by
    unfold evaluate_club
    rw [hq1, hq3]
    rfl
  refine ⟨_, hev, h1a, h1b, h2a, h2b, h3a, h3b, h4a, h4b, h5a, h5b, rfl, ?_, ?_⟩
  · simp only [weight_social_media, weight_chat_engagement, weight_reach,
      weight_community_activity, weight_content_quality]
    linarith
  · simp only [weight_social_media, weight_chat_engagement, weight_reach,
      weight_community_activity, weight_content_quality]
    linarith

/-- Witness for C1 at `c1Data` (follower count 10 million). -/
theorem c1_witness :
    nonneg_data c1Data = true ∧
    (weight_social_media + weight_chat_engagement + weight_reach +
      weight_community_activity + weight_content_quality = 1 ∧
    ∃ r, evaluate_club c1Data 1 = .ok r ∧
      0 ≤ r.social_media_score ∧ r.social_media_score ≤ 10 ∧
      0 ≤ r.chat_engagement_score ∧ r.chat_engagement_score ≤ 10 ∧
      0 ≤ r.combined_reach_score ∧ r.combined_reach_score ≤ 10 ∧
      0 ≤ r.community_activity_score ∧ r.community_activity_score ≤ 10 ∧
      0 ≤ r.content_quality_score ∧ r.content_quality_score ≤ 10 ∧
      r.overall_score =
        r.social_media_score * weight_social_media +
        r.chat_engagement_score * weight_chat_engagement +
        r.combined_reach_score * weight_reach +
        r.community_activity_score * weight_community_activity +
        r.content_quality_score * weight_content_quality ∧
      0 ≤ r.overall_score ∧ r.overall_score ≤ 10) :=
  ⟨by decide, c1_scores_bounded c1Data 1 (by decide)⟩

theorem except_bind_ok {ε α β : Type} (a : α) (f : α → Except ε β) :
    (Except.ok a >>= f) = f a := rfl

theorem voting_fold_ok (tv : ℚ) (key : String) (htv : tv ≠ 0) :
    ∀ (l : List (String × List (String × ℚ))) (acc : ℚ × ℕ),
      ∃ p, voting_fold tv key l acc = .ok p := by
  intro l
  induction l with
  | nil => exact fun acc => ⟨acc, rfl⟩
  | cons cat rest ih =>
    intro acc
    unfold voting_fold
    rw [if_neg htv]
    exact ih _

theorem voting_score_ok (es : ESData) (hvo : voting_ok es = true) (cid : ℤ) :
    ∃ q, _calculate_voting_score es cid = .ok q := by
  unfold _calculate_voting_score
  cases hv : es.voting_data with
  | none => exact ⟨5, rfl⟩
  | some v =>
    dsimp only
    unfold voting_ok at hvo
    rw [hv] at hvo
    by_cases hc : v.categories = []
    · rw [hc]
      exact ⟨5, rfl⟩
    · have htv : v.total_votes ≠ 0 := by
        rcases Bool.or_eq_true _ _ |>.mp hvo with h1 | h1
        · exact absurd (List.isEmpty_iff.mp h1) hc
        · exact of_decide_eq_true h1
      obtain ⟨p, hp⟩ := voting_fold_ok v.total_votes (intKey cid) htv v.categories (0, 0)
      rw [hp, except_bind_ok]
      by_cases hpos : 0 < p.2
      · rw [if_pos hpos]
        exact ⟨_, rfl⟩
      · rw [if_neg hpos]
        exact ⟨_, rfl⟩

theorem calculate_club_metrics_ok (es : ESData) (hvo : voting_ok es = true) (cid : ℤ) :
    ∃ m, calculate_club_metrics es cid = .ok m := by
  obtain ⟨q, hq⟩ := voting_score_ok es hvo cid
  unfold calculate_club_metrics
  rw [hq, except_bind_ok]
  exact ⟨_, rfl⟩

theorem mk_ranking_ok (es : ESData) (hvo : voting_ok es = true) (club : Club) :
    ∃ r, mk_ranking es club = .ok r ∧ r.club = club := by
  obtain ⟨m, hm⟩ := calculate_club_metrics_ok es hvo club.id
  refine ⟨⟨0, club, m⟩, ?_, rfl⟩
  unfold mk_ranking
  rw [hm]
  rfl

/-- Under loadable voting data, the ranking loop succeeds and produces
one entry per club, in order. -/
theorem mapM_rankings_ok (es : ESData) (hvo : voting_ok es = true) :
    ∀ clubs : List Club, ∃ rs, clubs.mapM (mk_ranking es) = .ok rs ∧
      rs.map (fun r => r.club) = clubs := by
  intro clubs
  induction clubs with
  | nil => exact ⟨[], rfl, rfl⟩
  | cons c t ih =>
    obtain ⟨r, hr, hrc⟩ := mk_ranking_ok es hvo c
    obtain ⟨rs, hrs, hmap⟩ := ih
    refine ⟨r :: rs, ?_, ?_⟩
    · rw [List.mapM_cons, hr, hrs]
      rfl
    · simp only [List.map_cons, hmap, hrc]

/-- Claim C3 (counterexample).  With no voting data loaded at all (the
`voting_data` dict empty or lacking `vote_summary`), the voting sub-score
of any club is the neutral default 5.0, not the 0.0 the claim asserts for
all missing-data signals. -/
theorem c3_counterexample :
    _calculate_voting_score ⟨[], [], [], none⟩ 1 = .ok 5 ∧
      ¬ _calculate_voting_score ⟨[], [], [], none⟩ 1 = .ok 0 :=
  ⟨rfl, by decide⟩

/-- Claim C3 (amended): when a *present* data source simply has no record
for the club, the corresponding sub-score is 0.0 — no social-media entry
gives social-media score 0, combined-reach contribution 0; no
chat-analysis entry gives chat-engagement 0 and community-activity 0; a
loaded vote summary (with at least one category, positive total and no
entry for the club in any category) gives voting score 0.0.  The club
still appears in the ranking, which succeeds.  (When the voting source
itself is absent the voting sub-score is instead the neutral default
5.0 — see the counterexample.) -/
theorem c3_missing_signal_zero (d : EvalData) (es : ESData) (clubs : List Club) (cid : ℤ)
    (v : VoteSummary)
    (hsm : d.social_media_data.lookup cid = none)
    (hwa : d.whatsapp_data.lookup cid = none)
    (hv : es.voting_data = some v)
    (hcats : v.categories ≠ [])
    (htv : 0 < v.total_votes)
    (hnov : ∀ cat ∈ v.categories, cat.2.lookup (intKey cid) = none) :
    calculate_social_media_score d cid = .ok 0 ∧
    calculate_chat_engagement_score d cid = 0 ∧
    calculate_combined_reach_score d cid = .ok 0 ∧
    calculate_community_activity_score d cid = 0 ∧
    _calculate_voting_score es cid = .ok 0 ∧
    ∃ out, get_overall_rankings es clubs = .ok out ∧
      ∀ c ∈ clubs, ∃ r ∈ out, r.club = c := by
  have htv' : v.total_votes ≠ 0 := ne_of_gt htv
  have hvo : voting_ok es = true := by
    unfold voting_ok
    rw [hv]
    apply Bool.or_eq_true _ _ |>.mpr
    exact Or.inr (decide_eq_true htv')
  refine ⟨?_, ?_, ?_, ?_, ?_, ?_⟩
  · unfold calculate_social_media_score
    rw [hsm]
  · unfold calculate_chat_engagement_score
    rw [hwa]
  · unfold calculate_combined_reach_score
    rw [hsm, hwa]
    dsimp only
    show Except.ok (min ((0 + 0 : ℚ) / 200) 10) = Except.ok 0
    norm_num
  · unfold calculate_community_activity_score
    rw [hwa]
  · unfold _calculate_voting_score
    rw [hv]
    dsimp only
    have hstep : ∀ (l : List (String × List (String × ℚ))) (a : ℚ) (n : ℕ),
        (∀ cat ∈ l, cat.2.lookup (intKey cid) = none) →
        voting_fold v.total_votes (intKey cid) l (a, n) = .ok (a, n + l.length) := by
      intro l
      induction l with
      | nil => intro a n _; simp [voting_fold]
      | cons hd tl ih =>
        intro a n hall
        have hhd : hd.2.lookup (intKey cid) = none := hall hd (List.mem_cons_self _ _)
        unfold voting_fold
        rw [if_neg htv']
        dsimp only
        have hzero : min ((hd.2.lookup (intKey cid)).getD 0 / v.total_votes * 100 * 2) 10
            = 0 := by
          rw [hhd]
          simp only [Option.getD_none, zero_div, zero_mul]
          norm_num
        rw [hzero, add_zero]
        rw [ih a (n + 1) fun cat hc => hall cat (List.mem_cons_of_mem _ hc)]
        simp only [List.length_cons]
        congr 2
        omega
    rw [hstep v.categories 0 0 hnov, except_bind_ok]
    have hlen : 0 < v.categories.length := List.length_pos.mpr hcats
    dsimp only
    rw [if_pos (by simpa using hlen)]
    simp only [zero_div]
    rfl
  · obtain ⟨rs, hrs, hmap⟩ := mapM_rankings_ok es hvo clubs
    have hout : get_overall_rankings es clubs = .ok
        (sort_and_rank (fun x => x.metrics.overall_score) setRankRanking rs) := by
      unfold get_overall_rankings
      rw [hrs]
      rfl
    refine ⟨_, hout, ?_⟩
    intro c hc
    have hperm := sort_and_rank_perm (fun x : ClubRanking => x.metrics.overall_score)
      setRankRanking (fun x => x.club) (fun i x => rfl) rs
    have hcc : c ∈ rs.map fun r => r.club := by
      rw [hmap]
      exact hc
    have hmem := hperm.mem_iff.mpr hcc
    rcases List.mem_map.mp hmem with ⟨r, hr, hrc⟩
    exact ⟨r, hr, hrc⟩

/-- Witness for C3's amended theorem: club 1 has no record in any source;
the loaded vote summary has one category naming only club 2. -/
theorem c3_witness :
    (c3d.social_media_data.lookup 1 = none ∧ c3d.whatsapp_data.lookup 1 = none ∧
     c3es.voting_data = some c3v ∧ c3v.categories ≠ [] ∧ (0:ℚ) < c3v.total_votes ∧
     ∀ cat ∈ c3v.categories, cat.2.lookup (intKey 1) = none) ∧
    (calculate_social_media_score c3d 1 = .ok 0 ∧
     calculate_chat_engagement_score c3d 1 = 0 ∧
     calculate_combined_reach_score c3d 1 = .ok 0 ∧
     calculate_community_activity_score c3d 1 = 0 ∧
     _calculate_voting_score c3es 1 = .ok 0 ∧
     ∃ out, get_overall_rankings c3es [clubChess] = .ok out ∧
       ∀ c ∈ [clubChess], ∃ r ∈ out, r.club = c) :=
  ⟨⟨rfl, rfl, rfl, by decide, by decide, by decide⟩,
   c3_missing_signal_zero c3d c3es [clubChess] 1 c3v rfl rfl rfl (by decide) (by decide)
     (by decide)⟩

/-- In the output of `sort_and_rank`, a strictly higher score forces a
strictly smaller (better) rank. -/
theorem sort_and_rank_rank_lt {α : Type} (score : α → ℚ) (setRank : ℕ → α → α) (rank : α → ℕ)
    (hs : ∀ i x, score (setRank i x) = score x) (hr : ∀ i x, rank (setRank i x) = i)
    (l : List α) (i j : ℕ)
    (hi : i < (sort_and_rank score setRank l).length)
    (hj : j < (sort_and_rank score setRank l).length)
    (hlt : score ((sort_and_rank score setRank l)[j]) <
      score ((sort_and_rank score setRank l)[i])) :
    rank ((sort_and_rank score setRank l)[i]) < rank ((sort_and_rank score setRank l)[j]) := by
  rcases lt_trichotomy i j with hij | hij | hij
  · rw [sort_and_rank_rank score setRank rank hr l i hi,
      sort_and_rank_rank score setRank rank hr l j hj]
    omega
  · subst hij
    exact absurd hlt (lt_irrefl _)
  · have hp := sort_and_rank_sorted score setRank hs l
    rw [List.pairwise_iff_getElem] at hp
    have := hp j i hj hi hij
    exact absurd hlt (not_lt.mpr this)

theorem evaluate_club_ok (d : EvalData) (cid : ℤ) (h : nonneg_data d = true) :
    ∃ r, evaluate_club d cid = .ok r := by
  obtain ⟨q1, hq1, _, _⟩ := social_media_score_bounds d cid h
  obtain ⟨q3, hq3, _, _⟩ := combined_reach_score_bounds d cid h
  refine ⟨{ club_id := cid
            club_name :=
              match d.clubs_data.lookup cid with
              | some info => info.name
              | none => "Club " ++ intKey cid
            overall_score :=
              q1 * weight_social_media +
              calculate_chat_engagement_score d cid * weight_chat_engagement +
              q3 * weight_reach +
              calculate_community_activity_score d cid * weight_community_activity +
              calculate_content_quality_score d cid * weight_content_quality
            social_media_score := q1
            chat_engagement_score := calculate_chat_engagement_score d cid
            combined_reach_score := q3
            community_activity_score := calculate_community_activity_score d cid
            content_quality_score := calculate_content_quality_score d cid
            rank := 0 }, ?_⟩
  unfold evaluate_club
  rw [hq1, hq3]
  rfl

theorem mapM_evaluate_ok (d : EvalData) (h : nonneg_data d = true) :
    ∀ l : List ℤ, ∃ rs, l.mapM (evaluate_club d) = .ok rs := by
  intro l
  induction l with
  | nil => exact ⟨[], rfl⟩
  | cons x xs ih =>
    obtain ⟨r, hr⟩ := evaluate_club_ok d x h
    obtain ⟨rs, hrs⟩ := ih
    refine ⟨r :: rs, ?_⟩
    rw [List.mapM_cons, hr, hrs]
    rfl

/-- Claim C4: both ranking functions return a list sorted in descending
order of overall score with rank equal to the 1-based position; distinct
scores force a strictly smaller rank number for the higher score; entries
with equal overall scores keep their pre-sort relative order (stable
sort); and re-running on the same loaded input produces the identical
list (the functions are pure).  For `evaluate_all_clubs` the statement is
under the non-negative-input hypothesis that makes evaluation succeed
(`_parse_number` can raise on exotic follower strings — see C8); for
`get_overall_rankings` it is under the `voting_ok` hypothesis that makes
every `calculate_club_metrics` call succeed (`_calculate_voting_score`
raises `ZeroDivisionError` when a loaded vote summary has a category but
`total_votes` is 0). -/
theorem c4_ranking_sorted_stable (d : EvalData) (h : nonneg_data d = true)
    (es : ESData) (hvo : voting_ok es = true) (clubs : List Club) :
    (∃ pre out, (club_ids d).mapM (evaluate_club d) = .ok pre ∧
      evaluate_all_clubs d = .ok out ∧
      out = sort_and_rank (fun r : ClubEvaluationResult => r.overall_score) setRankResult pre ∧
      out.Pairwise (fun a b => b.overall_score ≤ a.overall_score) ∧
      (∀ i (hi : i < out.length), (out[i]).rank = i + 1) ∧
      (∀ i j (hi : i < out.length) (hj : j < out.length),
        (out[j]).overall_score < (out[i]).overall_score → (out[i]).rank < (out[j]).rank) ∧
      (∀ s : ℚ, ((out.map (setRankResult 0)).filter fun r => decide (r.overall_score = s)) =
        ((pre.map (setRankResult 0)).filter fun r => decide (r.overall_score = s)))) ∧
    evaluate_all_clubs d = evaluate_all_clubs d ∧
    (∃ preR outR, clubs.mapM (mk_ranking es) = .ok preR ∧
      get_overall_rankings es clubs = .ok outR ∧
      outR = sort_and_rank (fun r : ClubRanking => r.metrics.overall_score)
        setRankRanking preR ∧
      outR.Pairwise (fun a b => b.metrics.overall_score ≤ a.metrics.overall_score) ∧
      (∀ i (hi : i < outR.length), (outR[i]).rank = i + 1) ∧
      (∀ i j (hi : i < outR.length) (hj : j < outR.length),
        (outR[j]).metrics.overall_score < (outR[i]).metrics.overall_score →
          (outR[i]).rank < (outR[j]).rank) ∧
      (∀ s : ℚ,
        ((outR.map (setRankRanking 0)).filter
            fun r => decide (r.metrics.overall_score = s)) =
          ((preR.map (setRankRanking 0)).filter
            fun r => decide (r.metrics.overall_score = s)))) ∧
    get_overall_rankings es clubs = get_overall_rankings es clubs := by
  obtain ⟨pre, hpre⟩ := mapM_evaluate_ok d h (club_ids d)
  have hout : evaluate_all_clubs d = .ok
      (sort_and_rank (fun r : ClubEvaluationResult => r.overall_score) setRankResult pre) := by
    unfold evaluate_all_clubs
    rw [hpre]
    rfl
  obtain ⟨preR, hpreR, _⟩ := mapM_rankings_ok es hvo clubs
  have houtR : get_overall_rankings es clubs = .ok
      (sort_and_rank (fun r : ClubRanking => r.metrics.overall_score)
        setRankRanking preR) := by
    unfold get_overall_rankings
    rw [hpreR]
    rfl
  refine ⟨⟨pre, _, hpre, hout, rfl, ?_, ?_, ?_, ?_⟩, rfl,
    ⟨preR, _, hpreR, houtR, rfl, ?_, ?_, ?_, ?_⟩, rfl⟩
  · exact sort_and_rank_sorted (fun r : ClubEvaluationResult => r.overall_score) setRankResult (fun i x => rfl) pre
  · exact fun i hi => sort_and_rank_rank (fun r : ClubEvaluationResult => r.overall_score) setRankResult
      (fun r => r.rank) (fun i x => rfl) pre i hi
  · exact fun i j hi hj hlt => sort_and_rank_rank_lt (fun r : ClubEvaluationResult => r.overall_score) setRankResult
      (fun r => r.rank) (fun i x => rfl) (fun i x => rfl) pre i j hi hj hlt
  · exact fun s => sort_and_rank_stable (fun r : ClubEvaluationResult => r.overall_score) setRankResult
      (setRankResult 0) (fun i x => rfl) (fun r => r.overall_score) (fun a => rfl) pre s
  · exact sort_and_rank_sorted (fun r : ClubRanking => r.metrics.overall_score) setRankRanking
      (fun i x => rfl) preR
  · exact fun i hi => sort_and_rank_rank (fun r : ClubRanking => r.metrics.overall_score) setRankRanking
      (fun r => r.rank) (fun i x => rfl) preR i hi
  · exact fun i j hi hj hlt => sort_and_rank_rank_lt (fun r : ClubRanking => r.metrics.overall_score)
      setRankRanking (fun r => r.rank) (fun i x => rfl) (fun i x => rfl) preR i j hi hj hlt
  · exact fun s => sort_and_rank_stable (fun r : ClubRanking => r.metrics.overall_score) setRankRanking
      (setRankRanking 0) (fun i x => rfl) (fun r => r.metrics.overall_score) (fun a => rfl) preR s

/-- Witness for C4 at the concrete loaded data `c1Data` / `c3es` /
`[clubChess]`. -/
theorem c4_witness :
    (nonneg_data c1Data = true ∧ voting_ok c3es = true) ∧
    ((∃ pre out, (club_ids c1Data).mapM (evaluate_club c1Data) = .ok pre ∧
      evaluate_all_clubs c1Data = .ok out ∧
      out = sort_and_rank (fun r => r.overall_score) setRankResult pre ∧
      out.Pairwise (fun a b => b.overall_score ≤ a.overall_score) ∧
      (∀ i (hi : i < out.length), (out[i]).rank = i + 1) ∧
      (∀ i j (hi : i < out.length) (hj : j < out.length),
        (out[j]).overall_score < (out[i]).overall_score → (out[i]).rank < (out[j]).rank) ∧
      (∀ s : ℚ, ((out.map (setRankResult 0)).filter fun r => decide (r.overall_score = s)) =
        ((pre.map (setRankResult 0)).filter fun r => decide (r.overall_score = s)))) ∧
    evaluate_all_clubs c1Data = evaluate_all_clubs c1Data ∧
    (∃ preR outR, [clubChess].mapM (mk_ranking c3es) = .ok preR ∧
      get_overall_rankings c3es [clubChess] = .ok outR ∧
      outR = sort_and_rank (fun r : ClubRanking => r.metrics.overall_score)
        setRankRanking preR ∧
      outR.Pairwise (fun a b => b.metrics.overall_score ≤ a.metrics.overall_score) ∧
      (∀ i (hi : i < outR.length), (outR[i]).rank = i + 1) ∧
      (∀ i j (hi : i < outR.length) (hj : j < outR.length),
        (outR[j]).metrics.overall_score < (outR[i]).metrics.overall_score →
          (outR[i]).rank < (outR[j]).rank) ∧
      (∀ s : ℚ,
        ((outR.map (setRankRanking 0)).filter
            fun r => decide (r.metrics.overall_score = s)) =
          ((preR.map (setRankRanking 0)).filter
            fun r => decide (r.metrics.overall_score = s)))) ∧
    get_overall_rankings c3es [clubChess] = get_overall_rankings c3es [clubChess]) :=
  ⟨⟨by decide, by decide⟩,
   c4_ranking_sorted_stable c1Data (by decide) c3es (by decide) [clubChess]⟩

